import Mathlib

/-!
# CERISE gateway: the Protocol Manager

A shallow embedding of `src/src/protocol_manager.cpp` (with the declarations
of `src/include/protocol_manager.h`), followed by theorems about it.

Conventions of the embedding.

* The object `ProtocolManager` is a record of its data members; every member
  function is a function from the record to the record (and a return value).
* The two `std::map` members are partial functions `ProtocolType → Option _`:
  `m[k] = v` is `Function.update m k (some v)`, and `m.at(k)` fails with
  `Fault.outOfRange` when `k` is absent.
* The transport libraries (PubSubClient, HTTPClient, WebSocketsClient,
  coap-simple, SPIFFS) are not part of the repository.  Every call into them
  is appended to the ghost member `trace`, and whatever such a call returns is
  read from a `World`, indexed by the number of calls made so far.  A theorem
  quantified over every `World` holds for every behaviour of the libraries.
* `std::vector` iterators are positions (indices) in the list.
* The registered callbacks are calls that leave the manager: they are recorded
  in the trace and do not call back into it.
* A loop that need not terminate takes a fuel argument and answers
  `Fault.outOfFuel` when the fuel is spent.
-/

namespace Cerise

/-! ## Data model (`protocol_manager.h`) -/

/-- Protocol types, `enum class ProtocolType`. -/
inductive ProtocolType where
  | MQTT
  | HTTP
  | HTTPS
  | WEBSOCKET
  | COAP
  | CUSTOM
  deriving DecidableEq, Repr

/-- Protocol states, `enum class ProtocolState`. -/
inductive ProtocolState where
  | DISCONNECTED
  | CONNECTING
  | CONNECTED
  | ERROR
  deriving DecidableEq, Repr

/-- Message structure, `struct ProtocolMessage`. -/
structure ProtocolMessage where
  topic : String
  payload : String
  protocol : ProtocolType
  retain : Bool
  qos : Nat
  isResponse : Bool
  deriving DecidableEq, Repr

/-- Protocol configuration, `struct ProtocolConfig`; the ports are `uint16_t`. -/
structure ProtocolConfig where
  mqttBroker : String
  mqttPort : Nat
  mqttUsername : String
  mqttPassword : String
  mqttClientId : String
  mqttTopicPrefix : String
  httpServer : String
  httpPort : Nat
  useHttps : Bool
  httpUsername : String
  httpPassword : String
  wsServer : String
  wsPort : Nat
  wsPath : String
  wsSecure : Bool
  coapServer : String
  coapPort : Nat
  customProtocol : String
  customConfig : String
  deriving DecidableEq, Repr

/-- The JSON document read back from `/protocol_config.json`: each key is
either absent (or of the wrong type) or carries a value. -/
structure JsonDoc where
  mqttBroker : Option String
  mqttPort : Option Nat
  mqttUsername : Option String
  mqttPassword : Option String
  mqttClientId : Option String
  mqttTopicPrefix : Option String
  httpServer : Option String
  httpPort : Option Nat
  useHttps : Option Bool
  httpUsername : Option String
  httpPassword : Option String
  wsServer : Option String
  wsPort : Option Nat
  wsPath : Option String
  wsSecure : Option Bool
  coapServer : Option String
  coapPort : Option Nat
  customProtocol : Option String
  customConfig : Option String

/-- Event kinds of the WebSocketsClient library, `WStype_t`. -/
inductive WStype_t where
  | WStype_ERROR
  | WStype_DISCONNECTED
  | WStype_CONNECTED
  | WStype_TEXT
  | WStype_BIN
  | WStype_FRAGMENT_TEXT_START
  | WStype_FRAGMENT_BIN_START
  | WStype_FRAGMENT
  | WStype_FRAGMENT_FIN
  | WStype_PING
  | WStype_PONG
  deriving DecidableEq, Repr

/-- An event the socket library hands to its handler: kind and payload. -/
structure WsEvent where
  type : WStype_t
  payload : String
  deriving DecidableEq, Repr

/-- An inbound broker message: topic and payload. -/
structure MqttEvent where
  topic : String
  payload : String
  deriving DecidableEq, Repr

/-- Who a transport library calls back: nobody yet, the lambda of the manager
(`begin`, `connectWebSocket`), or a function given to `setMqttCallback`,
`setWebSocketCallback` or `setCoapCallback`. -/
inductive Handler where
  | unset
  | manager
  | user
  deriving DecidableEq, Repr

/-- A call that leaves the manager: into a transport library, the file
system, the serial console, or the registered message callback. -/
inductive Call where
  | mqttSetServer (host : String) (port : Nat)
  | mqttConnect (clientId user pass : String)
  | mqttDisconnect
  | mqttPublish (topic payload : String) (retain : Bool)
  | mqttSubscribe (topic : String)
  | mqttLoop
  | httpPost (url : String) (auth : Option (String × String)) (payload : String)
  | wsBegin (secure : Bool) (host : String) (port : Nat) (path : String)
  | wsDisconnect
  | wsSendTXT (payload : String)
  | wsLoop
  | coapStart
  | coapPut (host : String) (port : Nat) (url payload : String)
  | fsExists
  | fsOpen (write : Bool)
  | fsClose
  | serializeJson (cfg : ProtocolConfig)
  | deserializeJson
  | serialPrintln (line : String)
  | messageCallback (m : ProtocolMessage)
  | userMqttCallback (e : MqttEvent)
  | userWsCallback (e : WsEvent)
  deriving DecidableEq, Repr

/-- What the libraries answer.  The argument of each field is the number of
calls recorded in the trace when the call is made. -/
structure World where
  mqttConnect : Nat → Bool
  mqttPublish : Nat → Bool
  mqttSubscribe : Nat → Bool
  mqttLoop : Nat → List MqttEvent
  httpPost : Nat → Int
  wsSendTXT : Nat → Bool
  wsLoop : Nat → List WsEvent
  wsDisconnect : Nat → List WsEvent
  coapStart : Nat → Bool
  coapPut : Nat → Nat
  fsExists : Nat → Bool
  fsOpen : Nat → Bool
  serializeJson : Nat → Nat
  deserializeJson : Nat → Option JsonDoc

/-- Ways a member function fails to return: `std::map::at` on an absent key,
or a loop that is still running when the fuel is spent. -/
inductive Fault where
  | outOfRange
  | outOfFuel
  deriving DecidableEq, Repr

/-- The data members of `class ProtocolManager`.  `messageCallback` records
whether the function pointer is non-null; `mqttHandler`, `wsHandler` and
`coapHandler` record which handler the library objects hold; `trace` is the
ghost record of calls leaving the manager. -/
structure ProtocolManager where
  config : ProtocolConfig
  states : ProtocolType → Option ProtocolState
  lastErrors : ProtocolType → Option String
  messageCallback : Bool
  messageQueue : List ProtocolMessage
  mqttHandler : Handler
  wsHandler : Handler
  coapHandler : Handler
  trace : List Call

/-- The constant `MAX_QUEUE_SIZE`. -/
def MAX_QUEUE_SIZE : Nat := 50

/-- The constant `HTTP_CODE_OK` of the HTTPClient library, whose header is not
part of the repository: the status code 200, "OK". -/
def HTTP_CODE_OK : Int := 200

/-- Record a call leaving the manager. -/
def ProtocolManager.emit (s : ProtocolManager) (c : Call) : ProtocolManager :=
  { s with trace := s.trace ++ [c] }

/-- The index at which the next library call reads the world. -/
def ProtocolManager.now (s : ProtocolManager) : Nat := s.trace.length

/-- Assignment `states[protocol] = st`. -/
def ProtocolManager.setState (s : ProtocolManager) (protocol : ProtocolType)
    (st : ProtocolState) : ProtocolManager :=
  { s with states := Function.update s.states protocol (some st) }

/-- Lower-case hexadecimal text of a number, as `String(n, HEX)` prints it. -/
def hexString (n : Nat) : String := String.mk (Nat.toDigits 16 n)

/-- The constructor `ProtocolManager::ProtocolManager()`; `efuseMac` is the
value of `ESP.getEfuseMac()`, truncated to `uint32_t` by the cast. -/
def ProtocolManager.new (efuseMac : Nat) : ProtocolManager :=
  { config :=
      { mqttBroker := "", mqttPort := 1883, mqttUsername := "", mqttPassword := "",
        mqttClientId := "CERISE-GW-" ++ hexString (efuseMac % 2 ^ 32),
        mqttTopicPrefix := "",
        httpServer := "", httpPort := 80, useHttps := false,
        httpUsername := "", httpPassword := "",
        wsServer := "", wsPort := 80, wsPath := "", wsSecure := false,
        coapServer := "", coapPort := 5683,
        customProtocol := "", customConfig := "" },
    states := fun _ => some ProtocolState.DISCONNECTED,
    lastErrors := fun _ => none,
    messageCallback := false,
    messageQueue := [],
    mqttHandler := Handler.unset,
    wsHandler := Handler.unset,
    coapHandler := Handler.unset,
    trace := [] }

/-! ## Connection registry -/

/-- The member `getState`: `states.at(protocol)`. -/
def getState (s : ProtocolManager) (protocol : ProtocolType) : Except Fault ProtocolState :=
  match s.states protocol with
  | some st => Except.ok st
  | none => Except.error Fault.outOfRange

/-- The member `getLastError`: `lastErrors.at(protocol)`. -/
def getLastError (s : ProtocolManager) (protocol : ProtocolType) : Except Fault String :=
  match s.lastErrors protocol with
  | some e => Except.ok e
  | none => Except.error Fault.outOfRange

/-- The member `isConnected`: `states.at(protocol) == CONNECTED`. -/
def isConnected (s : ProtocolManager) (protocol : ProtocolType) : Except Fault Bool :=
  match s.states protocol with
  | some st => Except.ok (decide (st = ProtocolState.CONNECTED))
  | none => Except.error Fault.outOfRange

/-- The member `logProtocolEvent`. -/
def logProtocolEvent (protocol : ProtocolType) (event : String)
    (s : ProtocolManager) : ProtocolManager :=
  let protocolName : String :=
    match protocol with
    | ProtocolType.MQTT => "MQTT"
    | ProtocolType.HTTP => "HTTP"
    | ProtocolType.HTTPS => "HTTPS"
    | ProtocolType.WEBSOCKET => "WebSocket"
    | ProtocolType.COAP => "CoAP"
    | ProtocolType.CUSTOM => "Custom"
  s.emit (Call.serialPrintln ("[" ++ protocolName ++ "] " ++ event))

/-- The member `setError`. -/
def setError (protocol : ProtocolType) (error : String)
    (s : ProtocolManager) : ProtocolManager :=
  logProtocolEvent protocol ("Error: " ++ error)
    { s with lastErrors := Function.update s.lastErrors protocol (some error) }

/-- The member `clearError`. -/
def clearError (protocol : ProtocolType) (s : ProtocolManager) : ProtocolManager :=
  { s with lastErrors := Function.update s.lastErrors protocol (some "") }

/-! ## Dispatcher: inbound events -/

/-- The member `handleMqttMessage`.  The fields `retain` and `qos` of the
message are left unset by the source; they are shown here as `false` and `0`. -/
def handleMqttMessage (topic payload : String) (s : ProtocolManager) : ProtocolManager :=
  if s.messageCallback then
    s.emit (Call.messageCallback
      { topic := topic, payload := payload, protocol := ProtocolType.MQTT,
        retain := false, qos := 0, isResponse := false })
  else s

/-- The member `handleWebSocketEvent`. -/
def handleWebSocketEvent (type : WStype_t) (payload : String)
    (s : ProtocolManager) : ProtocolManager :=
  match type with
  | WStype_t.WStype_DISCONNECTED =>
      s.setState ProtocolType.WEBSOCKET ProtocolState.DISCONNECTED
  | WStype_t.WStype_CONNECTED =>
      s.setState ProtocolType.WEBSOCKET ProtocolState.CONNECTED
  | WStype_t.WStype_TEXT =>
      if s.messageCallback then
        s.emit (Call.messageCallback
          { topic := "websocket", payload := payload, protocol := ProtocolType.WEBSOCKET,
            retain := false, qos := 0, isResponse := false })
      else s
  | _ => s

/-- The member `handleCoapResponse`; `messageid` is the packet's message id. -/
def handleCoapResponse (messageid : Nat) (payload : String)
    (s : ProtocolManager) : ProtocolManager :=
  if s.messageCallback then
    s.emit (Call.messageCallback
      { topic := toString messageid, payload := payload, protocol := ProtocolType.COAP,
        retain := false, qos := 0, isResponse := true })
  else s

/-- The broker library delivers one inbound message to the handler it holds. -/
def deliverMqtt (s : ProtocolManager) (e : MqttEvent) : ProtocolManager :=
  match s.mqttHandler with
  | Handler.unset => s
  | Handler.manager => handleMqttMessage e.topic e.payload s
  | Handler.user => s.emit (Call.userMqttCallback e)

/-- The socket library delivers one event to the handler it holds. -/
def deliverWs (s : ProtocolManager) (e : WsEvent) : ProtocolManager :=
  match s.wsHandler with
  | Handler.unset => s
  | Handler.manager => handleWebSocketEvent e.type e.payload s
  | Handler.user => s.emit (Call.userWsCallback e)

/-- The call `mqttClient.loop()`: the inbound messages pending in the library
are delivered one by one. -/
def mqttLoop (w : World) (s : ProtocolManager) : ProtocolManager :=
  (w.mqttLoop s.now).foldl deliverMqtt (s.emit Call.mqttLoop)

/-- The call `webSocket.loop()`: the events pending in the library are
delivered one by one. -/
def wsLoop (w : World) (s : ProtocolManager) : ProtocolManager :=
  (w.wsLoop s.now).foldl deliverWs (s.emit Call.wsLoop)

/-! ## Adapters: connect and disconnect -/

/-- The member `connectMqtt`. -/
def connectMqtt (w : World) (s : ProtocolManager) : Bool × ProtocolManager :=
  let s1 := s.setState ProtocolType.MQTT ProtocolState.CONNECTING
  let s2 := s1.emit (Call.mqttSetServer s1.config.mqttBroker s1.config.mqttPort)
  let ok := w.mqttConnect s2.now
  let s3 := s2.emit (Call.mqttConnect s2.config.mqttClientId s2.config.mqttUsername
    s2.config.mqttPassword)
  if ok then
    (true, logProtocolEvent ProtocolType.MQTT "Connected to MQTT broker"
      (s3.setState ProtocolType.MQTT ProtocolState.CONNECTED))
  else
    (false, setError ProtocolType.MQTT "Failed to connect to MQTT broker"
      (s3.setState ProtocolType.MQTT ProtocolState.ERROR))

/-- The member `connectHttp`.  The parameter `useHttps` is not used by the
body: both assignments are to `states[ProtocolType::HTTP]`. -/
def connectHttp (_useHttps : Bool) (s : ProtocolManager) : Bool × ProtocolManager :=
  let s1 := s.setState ProtocolType.HTTP ProtocolState.CONNECTING
  (true, s1.setState ProtocolType.HTTP ProtocolState.CONNECTED)

/-- The member `connectWebSocket`. -/
def connectWebSocket (s : ProtocolManager) : Bool × ProtocolManager :=
  let s1 := s.setState ProtocolType.WEBSOCKET ProtocolState.CONNECTING
  let s2 := s1.emit (Call.wsBegin s1.config.wsSecure s1.config.wsServer s1.config.wsPort
    s1.config.wsPath)
  let s3 := { s2 with wsHandler := Handler.manager }
  (true, s3.setState ProtocolType.WEBSOCKET ProtocolState.CONNECTED)

/-- The member `connectCoap`. -/
def connectCoap (w : World) (s : ProtocolManager) : Bool × ProtocolManager :=
  let s1 := s.setState ProtocolType.COAP ProtocolState.CONNECTING
  let ok := w.coapStart s1.now
  let s2 := s1.emit Call.coapStart
  if ok then
    (true, s2.setState ProtocolType.COAP ProtocolState.CONNECTED)
  else
    (false, setError ProtocolType.COAP "Failed to start CoAP server"
      (s2.setState ProtocolType.COAP ProtocolState.ERROR))

/-- The member `connectCustom`. -/
def connectCustom (s : ProtocolManager) : Bool × ProtocolManager :=
  let s1 := s.setState ProtocolType.CUSTOM ProtocolState.CONNECTING
  (true, s1.setState ProtocolType.CUSTOM ProtocolState.CONNECTED)

/-- The member `connect`.  The `default` branch of the switch is not
reachable: the six cases cover the enumeration. -/
def connect (w : World) (protocol : ProtocolType) (s : ProtocolManager) :
    Bool × ProtocolManager :=
  match protocol with
  | ProtocolType.MQTT => connectMqtt w s
  | ProtocolType.HTTP => connectHttp (decide (protocol = ProtocolType.HTTPS)) s
  | ProtocolType.HTTPS => connectHttp (decide (protocol = ProtocolType.HTTPS)) s
  | ProtocolType.WEBSOCKET => connectWebSocket s
  | ProtocolType.COAP => connectCoap w s
  | ProtocolType.CUSTOM => connectCustom s

/-- The member `disconnect`.  `webSocket.disconnect()` may run the event
handler before it returns; the events it raises are the world's choice. -/
def disconnect (w : World) (protocol : ProtocolType) (s : ProtocolManager) :
    ProtocolManager :=
  let s1 :=
    match protocol with
    | ProtocolType.MQTT => s.emit Call.mqttDisconnect
    | ProtocolType.WEBSOCKET =>
        (w.wsDisconnect s.now).foldl deliverWs (s.emit Call.wsDisconnect)
    | ProtocolType.COAP => s
    | _ => s
  s1.setState protocol ProtocolState.DISCONNECTED

/-! ## Retry queue and publish -/

/-- The member `addToQueue`. -/
def addToQueue (message : ProtocolMessage) (s : ProtocolManager) : Bool × ProtocolManager :=
  if s.messageQueue.length ≥ MAX_QUEUE_SIZE then
    (false, s)
  else
    (true, { s with messageQueue := s.messageQueue ++ [message] })

/-- The member `publishHttp`. -/
def publishHttp (w : World) (message : ProtocolMessage) (s : ProtocolManager) :
    Bool × ProtocolManager :=
  let url := (if s.config.useHttps then "https://" else "http://") ++ s.config.httpServer
    ++ message.topic
  let auth :=
    if s.config.httpUsername.isEmpty then none
    else some (s.config.httpUsername, s.config.httpPassword)
  let httpCode := w.httpPost s.now
  (decide (httpCode = HTTP_CODE_OK), s.emit (Call.httpPost url auth message.payload))

/-- The member `publishCoap`; `coap.put` answers a `uint16_t` message id,
which the return converts to `bool`. -/
def publishCoap (w : World) (message : ProtocolMessage) (s : ProtocolManager) :
    Bool × ProtocolManager :=
  let id := w.coapPut s.now
  (decide (id % 2 ^ 16 ≠ 0),
    s.emit (Call.coapPut s.config.coapServer s.config.coapPort message.topic message.payload))

/-- The member `publishCustom`. -/
def publishCustom (_message : ProtocolMessage) (s : ProtocolManager) :
    Bool × ProtocolManager :=
  (true, s)

/-- The transport call of `publish`, taken once the transport is known to be
connected: the `switch` of the member `publish`. -/
def publishSwitch (w : World) (message : ProtocolMessage) (s : ProtocolManager) :
    Bool × ProtocolManager :=
  match message.protocol with
  | ProtocolType.MQTT =>
      (w.mqttPublish s.now,
        s.emit (Call.mqttPublish message.topic message.payload message.retain))
  | ProtocolType.HTTP => publishHttp w message s
  | ProtocolType.HTTPS => publishHttp w message s
  | ProtocolType.WEBSOCKET =>
      (w.wsSendTXT s.now, s.emit (Call.wsSendTXT message.payload))
  | ProtocolType.COAP => publishCoap w message s
  | ProtocolType.CUSTOM => publishCustom message s

/-- The member `publish`. -/
def publish (w : World) (message : ProtocolMessage) (s : ProtocolManager) :
    Except Fault (Bool × ProtocolManager) :=
  match isConnected s message.protocol with
  | Except.error e => Except.error e
  | Except.ok false => Except.ok (addToQueue message s)
  | Except.ok true => Except.ok (publishSwitch w message s)

/-- The `while` loop of `processMessageQueue`, with the iterator `it` a
position in the queue: `it != messageQueue.end()` is `it < length`,
`messageQueue.erase(it)` removes that position and leaves `it` in place.
The queue read at each step is the current one, so an entry that `publish`
appended during the loop is visited as well. -/
def processLoop (w : World) : Nat → Nat → ProtocolManager → Except Fault ProtocolManager
  | 0, _, _ => Except.error Fault.outOfFuel
  | fuel + 1, it, s =>
      match s.messageQueue[it]? with
      | none => Except.ok s
      | some m =>
          match publish w m s with
          | Except.error e => Except.error e
          | Except.ok (true, s1) =>
              processLoop w fuel it { s1 with messageQueue := s1.messageQueue.eraseIdx it }
          | Except.ok (false, s1) => processLoop w fuel (it + 1) s1

/-- The member `processMessageQueue`. -/
def processMessageQueue (w : World) (fuel : Nat) (s : ProtocolManager) :
    Except Fault ProtocolManager :=
  if s.messageQueue.isEmpty then Except.ok s
  else processLoop w fuel 0 s

/-- The value `states[protocol]` read with `operator[]`: an absent key is
inserted with the value-initialised state, `DISCONNECTED`. -/
def ProtocolManager.touchState (s : ProtocolManager) (protocol : ProtocolType) :
    ProtocolState × ProtocolManager :=
  match s.states protocol with
  | some st => (st, s)
  | none => (ProtocolState.DISCONNECTED, s.setState protocol ProtocolState.DISCONNECTED)

/-- The two event-loop steps of `update`, before the queue is processed. -/
def serviceLoops (w : World) (s : ProtocolManager) : ProtocolManager :=
  let (st1, s1) := s.touchState ProtocolType.MQTT
  let s2 := if st1 = ProtocolState.CONNECTED then mqttLoop w s1 else s1
  let (st2, s3) := s2.touchState ProtocolType.WEBSOCKET
  if st2 = ProtocolState.CONNECTED then wsLoop w s3 else s3

/-- The member `update`. -/
def update (w : World) (fuel : Nat) (s : ProtocolManager) : Except Fault ProtocolManager :=
  processMessageQueue w fuel (serviceLoops w s)

/-! ## Subscribe, configuration, start-up -/

/-- The member `subscribeCoap`. -/
def subscribeCoap (_topic : String) (s : ProtocolManager) : Bool × ProtocolManager :=
  (true, s)

/-- The member `subscribe`. -/
def subscribe (w : World) (topic : String) (protocol : ProtocolType)
    (s : ProtocolManager) : Bool × ProtocolManager :=
  match protocol with
  | ProtocolType.MQTT => (w.mqttSubscribe s.now, s.emit (Call.mqttSubscribe topic))
  | ProtocolType.WEBSOCKET => (true, s)
  | ProtocolType.COAP => subscribeCoap topic s
  | _ => (false, s)

/-- The member `setMessageCallback`; `nonNull` tells whether the pointer
given is non-null. -/
def setMessageCallback (nonNull : Bool) (s : ProtocolManager) : ProtocolManager :=
  { s with messageCallback := nonNull }

/-- The member `validateConfig`. -/
def validateConfig (_config : ProtocolConfig) : Bool := true

/-- The member `saveConfig`. -/
def saveConfig (w : World) (s : ProtocolManager) : Bool × ProtocolManager :=
  let opened := w.fsOpen s.now
  let s1 := s.emit (Call.fsOpen true)
  if !opened then (false, s1)
  else
    let written := w.serializeJson s1.now
    let s2 := s1.emit (Call.serializeJson s1.config)
    if written = 0 then (false, s2.emit Call.fsClose)
    else (true, s2.emit Call.fsClose)

/-- The expression `doc[key] | fallback` for a `uint16_t` member: the stored
value when there is one that fits, the fallback otherwise. -/
def orPort (d : Option Nat) (fallback : Nat) : Nat :=
  match d with
  | some v => if v < 2 ^ 16 then v else fallback
  | none => fallback

/-- The nineteen assignments `config.x = doc["x"] | config.x` of `loadConfig`. -/
def mergeConfig (doc : JsonDoc) (c : ProtocolConfig) : ProtocolConfig :=
  { mqttBroker := doc.mqttBroker.getD c.mqttBroker,
    mqttPort := orPort doc.mqttPort c.mqttPort,
    mqttUsername := doc.mqttUsername.getD c.mqttUsername,
    mqttPassword := doc.mqttPassword.getD c.mqttPassword,
    mqttClientId := doc.mqttClientId.getD c.mqttClientId,
    mqttTopicPrefix := doc.mqttTopicPrefix.getD c.mqttTopicPrefix,
    httpServer := doc.httpServer.getD c.httpServer,
    httpPort := orPort doc.httpPort c.httpPort,
    useHttps := doc.useHttps.getD c.useHttps,
    httpUsername := doc.httpUsername.getD c.httpUsername,
    httpPassword := doc.httpPassword.getD c.httpPassword,
    wsServer := doc.wsServer.getD c.wsServer,
    wsPort := orPort doc.wsPort c.wsPort,
    wsPath := doc.wsPath.getD c.wsPath,
    wsSecure := doc.wsSecure.getD c.wsSecure,
    coapServer := doc.coapServer.getD c.coapServer,
    coapPort := orPort doc.coapPort c.coapPort,
    customProtocol := doc.customProtocol.getD c.customProtocol,
    customConfig := doc.customConfig.getD c.customConfig }

/-- The member `loadConfig`. -/
def loadConfig (w : World) (s : ProtocolManager) : Bool × ProtocolManager :=
  let found := w.fsExists s.now
  let s1 := s.emit Call.fsExists
  if !found then saveConfig w s1
  else
    let opened := w.fsOpen s1.now
    let s2 := s1.emit (Call.fsOpen false)
    if !opened then (false, s2)
    else
      let parsed := w.deserializeJson s2.now
      let s3 := (s2.emit Call.deserializeJson).emit Call.fsClose
      match parsed with
      | none => (false, s3)
      | some doc => (true, { s3 with config := mergeConfig doc s3.config })

/-- The member `setConfig`. -/
def setConfig (w : World) (newConfig : ProtocolConfig) (s : ProtocolManager) :
    ProtocolManager :=
  if validateConfig newConfig then
    (saveConfig w { s with config := newConfig }).2
  else s

/-- The member `getConfig`. -/
def getConfig (s : ProtocolManager) : ProtocolConfig := s.config

/-- The member `begin`. -/
def begin (w : World) (s : ProtocolManager) : ProtocolManager :=
  let s1 := { s with mqttHandler := Handler.manager }
  let s2 := { s1 with wsHandler := Handler.manager }
  let s3 := { s2 with coapHandler := Handler.manager }
  let s4 := s3.emit Call.coapStart
  (loadConfig w s4).2

/-- The member `setMqttCallback`. -/
def setMqttCallback (s : ProtocolManager) : ProtocolManager :=
  { s with mqttHandler := Handler.user }

/-- The member `setWebSocketCallback`. -/
def setWebSocketCallback (s : ProtocolManager) : ProtocolManager :=
  { s with wsHandler := Handler.user }

/-- The member `setCoapCallback`. -/
def setCoapCallback (s : ProtocolManager) : ProtocolManager :=
  { s with coapHandler := Handler.user }

/-! ## Runs of the manager -/

/-- One thing that happens to a manager: a call of a public member, or an
inbound event handed to one of its three handlers. -/
inductive Op where
  | begin
  | update (fuel : Nat)
  | connect (protocol : ProtocolType)
  | disconnect (protocol : ProtocolType)
  | publish (message : ProtocolMessage)
  | subscribe (topic : String) (protocol : ProtocolType)
  | setMessageCallback (nonNull : Bool)
  | setConfig (newConfig : ProtocolConfig)
  | saveConfig
  | loadConfig
  | setMqttCallback
  | setWebSocketCallback
  | setCoapCallback
  | mqttMessage (topic payload : String)
  | webSocketEvent (type : WStype_t) (payload : String)
  | coapResponse (messageid : Nat) (payload : String)

/-- The manager after one operation, when the operation returns. -/
def step (w : World) (op : Op) (s : ProtocolManager) : Except Fault ProtocolManager :=
  match op with
  | Op.begin => Except.ok (begin w s)
  | Op.update fuel => update w fuel s
  | Op.connect protocol => Except.ok (connect w protocol s).2
  | Op.disconnect protocol => Except.ok (disconnect w protocol s)
  | Op.publish message =>
      match publish w message s with
      | Except.ok (_, s1) => Except.ok s1
      | Except.error e => Except.error e
  | Op.subscribe topic protocol => Except.ok (subscribe w topic protocol s).2
  | Op.setMessageCallback nonNull => Except.ok (setMessageCallback nonNull s)
  | Op.setConfig newConfig => Except.ok (setConfig w newConfig s)
  | Op.saveConfig => Except.ok (saveConfig w s).2
  | Op.loadConfig => Except.ok (loadConfig w s).2
  | Op.setMqttCallback => Except.ok (setMqttCallback s)
  | Op.setWebSocketCallback => Except.ok (setWebSocketCallback s)
  | Op.setCoapCallback => Except.ok (setCoapCallback s)
  | Op.mqttMessage topic payload => Except.ok (handleMqttMessage topic payload s)
  | Op.webSocketEvent type payload => Except.ok (handleWebSocketEvent type payload s)
  | Op.coapResponse messageid payload => Except.ok (handleCoapResponse messageid payload s)

/-- The states a manager can be in: the constructed one, and every state an
operation returns in from a reachable state, whatever the libraries answer. -/
inductive Reachable : ProtocolManager → Prop where
  | init (efuseMac : Nat) : Reachable (ProtocolManager.new efuseMac)
  | step (w : World) (op : Op) (s t : ProtocolManager) :
      Reachable s → step w op s = Except.ok t → Reachable t

/-! ## Concrete worlds and messages used in examples -/

/-- A world in which every library call fails or answers nothing. -/
def World.quiet : World :=
  { mqttConnect := fun _ => false,
    mqttPublish := fun _ => false,
    mqttSubscribe := fun _ => false,
    mqttLoop := fun _ => [],
    httpPost := fun _ => 500,
    wsSendTXT := fun _ => false,
    wsLoop := fun _ => [],
    wsDisconnect := fun _ => [],
    coapStart := fun _ => false,
    coapPut := fun _ => 0,
    fsExists := fun _ => false,
    fsOpen := fun _ => false,
    serializeJson := fun _ => 0,
    deserializeJson := fun _ => none }

/-- A world in which every library call succeeds and no event arrives. -/
def World.kind : World :=
  { mqttConnect := fun _ => true,
    mqttPublish := fun _ => true,
    mqttSubscribe := fun _ => true,
    mqttLoop := fun _ => [],
    httpPost := fun _ => 200,
    wsSendTXT := fun _ => true,
    wsLoop := fun _ => [],
    wsDisconnect := fun _ => [],
    coapStart := fun _ => true,
    coapPut := fun _ => 1,
    fsExists := fun _ => false,
    fsOpen := fun _ => true,
    serializeJson := fun _ => 1,
    deserializeJson := fun _ => none }

/-- A message for the given transport. -/
def sampleMessage (protocol : ProtocolType) (payload : String) : ProtocolMessage :=
  { topic := "/data", payload := payload, protocol := protocol,
    retain := false, qos := 0, isResponse := false }

/-! ## Basic facts -/

theorem isConnected_eq_true_iff (s : ProtocolManager) (p : ProtocolType) :
    isConnected s p = Except.ok true ↔ s.states p = some ProtocolState.CONNECTED := by
  unfold isConnected
  cases h : s.states p with
  | none => simp
  | some st => cases st <;> simp

theorem isConnected_eq_false_iff (s : ProtocolManager) (p : ProtocolType) :
    isConnected s p = Except.ok false ↔
      ∃ st, s.states p = some st ∧ st ≠ ProtocolState.CONNECTED := by
  unfold isConnected
  cases h : s.states p with
  | none => simp
  | some st => cases st <;> simp

theorem publish_of_connected (w : World) (m : ProtocolMessage) (s : ProtocolManager)
    (h : s.states m.protocol = some ProtocolState.CONNECTED) :
    publish w m s = Except.ok (publishSwitch w m s) := by
  simp [publish, isConnected, h]

theorem publish_of_not_connected (w : World) (m : ProtocolMessage) (s : ProtocolManager)
    (st : ProtocolState) (h : s.states m.protocol = some st)
    (hne : st ≠ ProtocolState.CONNECTED) :
    publish w m s = Except.ok (addToQueue m s) := by
  simp [publish, isConnected, h, hne]

theorem publishSwitch_messageQueue (w : World) (m : ProtocolMessage) (s : ProtocolManager) :
    (publishSwitch w m s).2.messageQueue = s.messageQueue := by
  unfold publishSwitch
  cases m.protocol <;> rfl

theorem publishSwitch_states (w : World) (m : ProtocolMessage) (s : ProtocolManager) :
    (publishSwitch w m s).2.states = s.states := by
  unfold publishSwitch
  cases m.protocol <;> rfl

theorem publishSwitch_lastErrors (w : World) (m : ProtocolMessage) (s : ProtocolManager) :
    (publishSwitch w m s).2.lastErrors = s.lastErrors := by
  unfold publishSwitch
  cases m.protocol <;> rfl

theorem addToQueue_states (m : ProtocolMessage) (s : ProtocolManager) :
    (addToQueue m s).2.states = s.states := by
  unfold addToQueue
  split <;> rfl

theorem deliverWs_messageQueue (s : ProtocolManager) (e : WsEvent) :
    (deliverWs s e).messageQueue = s.messageQueue := by
  unfold deliverWs
  cases s.wsHandler with
  | unset => rfl
  | user => rfl
  | manager =>
      simp only [handleWebSocketEvent]
      cases e.type <;> simp only [] <;> first | rfl | (split <;> rfl)

theorem deliverWs_lastErrors (s : ProtocolManager) (e : WsEvent) :
    (deliverWs s e).lastErrors = s.lastErrors := by
  unfold deliverWs
  cases s.wsHandler with
  | unset => rfl
  | user => rfl
  | manager =>
      simp only [handleWebSocketEvent]
      cases e.type <;> simp only [] <;> first | rfl | (split <;> rfl)

theorem foldl_deliverWs_messageQueue (evs : List WsEvent) (s : ProtocolManager) :
    (evs.foldl deliverWs s).messageQueue = s.messageQueue := by
  induction evs generalizing s with
  | nil => rfl
  | cons e rest ih => rw [List.foldl_cons, ih, deliverWs_messageQueue]

theorem foldl_deliverWs_lastErrors (evs : List WsEvent) (s : ProtocolManager) :
    (evs.foldl deliverWs s).lastErrors = s.lastErrors := by
  induction evs generalizing s with
  | nil => rfl
  | cons e rest ih => rw [List.foldl_cons, ih, deliverWs_lastErrors]

theorem deliverMqtt_messageQueue (s : ProtocolManager) (e : MqttEvent) :
    (deliverMqtt s e).messageQueue = s.messageQueue := by
  unfold deliverMqtt
  cases s.mqttHandler with
  | unset => rfl
  | user => rfl
  | manager =>
      simp only [handleMqttMessage]
      split <;> rfl

theorem foldl_deliverMqtt_messageQueue (evs : List MqttEvent) (s : ProtocolManager) :
    (evs.foldl deliverMqtt s).messageQueue = s.messageQueue := by
  induction evs generalizing s with
  | nil => rfl
  | cons e rest ih => rw [List.foldl_cons, ih, deliverMqtt_messageQueue]

theorem disconnect_messageQueue (w : World) (p : ProtocolType) (s : ProtocolManager) :
    (disconnect w p s).messageQueue = s.messageQueue := by
  cases p <;> simp [disconnect, ProtocolManager.setState, ProtocolManager.emit,
    foldl_deliverWs_messageQueue]

theorem disconnect_lastErrors (w : World) (p : ProtocolType) (s : ProtocolManager) :
    (disconnect w p s).lastErrors = s.lastErrors := by
  cases p <;> simp [disconnect, ProtocolManager.setState, ProtocolManager.emit,
    foldl_deliverWs_lastErrors]

theorem disconnect_states (w : World) (p : ProtocolType) (s : ProtocolManager) :
    (disconnect w p s).states p = some ProtocolState.DISCONNECTED := by
  simp [disconnect, ProtocolManager.setState]

/-! ## connect and disconnect -/

/-- C3, evaluated on the code: on a freshly constructed manager `connect(HTTPS)`
returns true, yet `getState(HTTPS)` is still `DISCONNECTED` afterwards; the
state that became `CONNECTED` is the one of `HTTP`. -/
theorem connect_https_leaves_https_disconnected (w : World) (efuseMac : Nat) :
    (connect w ProtocolType.HTTPS (ProtocolManager.new efuseMac)).1 = true ∧
    getState (connect w ProtocolType.HTTPS (ProtocolManager.new efuseMac)).2
      ProtocolType.HTTPS = Except.ok ProtocolState.DISCONNECTED ∧
    getState (connect w ProtocolType.HTTPS (ProtocolManager.new efuseMac)).2
      ProtocolType.HTTP = Except.ok ProtocolState.CONNECTED := by
  refine ⟨rfl, ?_, ?_⟩ <;>
    simp [connect, connectHttp, getState, ProtocolManager.setState, ProtocolManager.new]

/-- C8: after `disconnect(t)`, from any prior state of `t` and whatever events
the library raises while disconnecting, `getState(t)` is `DISCONNECTED`,
`isConnected(t)` is false, and the retry queue and the last-error values are
the ones from before the call. -/
theorem disconnect_sets_disconnected (w : World) (t : ProtocolType) (s : ProtocolManager) :
    getState (disconnect w t s) t = Except.ok ProtocolState.DISCONNECTED ∧
    isConnected (disconnect w t s) t = Except.ok false ∧
    (disconnect w t s).messageQueue = s.messageQueue ∧
    (disconnect w t s).lastErrors = s.lastErrors := by
  refine ⟨?_, ?_, disconnect_messageQueue w t s, disconnect_lastErrors w t s⟩
  · simp [getState, disconnect_states]
  · simp [isConnected, disconnect_states]

/-! ## publish -/

/-- C4: when the transport of `m` is connected, `publish(m)` returns what the
transport call returned (the broker publish, `httpCode == 200`, the socket
send, a non-zero CoAP message id, or true for the custom transport) and the
retry queue, the states and the last errors are the ones from before. -/
theorem publish_connected_returns_adapter_result (w : World) (m : ProtocolMessage)
    (s : ProtocolManager) (h : isConnected s m.protocol = Except.ok true) :
    ∃ t, publish w m s = Except.ok
        ((match m.protocol with
          | ProtocolType.MQTT => w.mqttPublish s.now
          | ProtocolType.HTTP => decide (w.httpPost s.now = 200)
          | ProtocolType.HTTPS => decide (w.httpPost s.now = 200)
          | ProtocolType.WEBSOCKET => w.wsSendTXT s.now
          | ProtocolType.COAP => decide (w.coapPut s.now % 2 ^ 16 ≠ 0)
          | ProtocolType.CUSTOM => true), t) ∧
      t.messageQueue = s.messageQueue ∧
      t.messageQueue.length = s.messageQueue.length ∧
      t.states = s.states ∧ t.lastErrors = s.lastErrors := by
  rw [isConnected_eq_true_iff] at h
  refine ⟨(publishSwitch w m s).2, ?_, publishSwitch_messageQueue w m s,
    by rw [publishSwitch_messageQueue], publishSwitch_states w m s,
    publishSwitch_lastErrors w m s⟩
  rw [publish_of_connected w m s h]
  unfold publishSwitch
  cases m.protocol <;> rfl

/-- Witness of C4: a failed HTTP request on a connected HTTP transport. -/
theorem publish_connected_returns_adapter_result_witness :
    isConnected (connect World.quiet ProtocolType.HTTP (ProtocolManager.new 0)).2
        (sampleMessage ProtocolType.HTTP "x").protocol = Except.ok true ∧
    ∃ t, publish World.quiet (sampleMessage ProtocolType.HTTP "x")
        (connect World.quiet ProtocolType.HTTP (ProtocolManager.new 0)).2 =
          Except.ok (false, t) ∧
      t.messageQueue = [] :=
  ⟨rfl,
    (publish_connected_returns_adapter_result World.quiet
      (sampleMessage ProtocolType.HTTP "x")
      (connect World.quiet ProtocolType.HTTP (ProtocolManager.new 0)).2 rfl).imp
      fun _ h => ⟨h.1, h.2.1⟩⟩

/-- C5: when the transport of `m` is not connected and the queue holds fewer
than 50 entries, `publish(m)` returns true, makes no call to any transport
(the trace is unchanged) and leaves the queue with `m` appended at the tail. -/
theorem publish_not_connected_enqueues (w : World) (m : ProtocolMessage)
    (s : ProtocolManager) (h : isConnected s m.protocol = Except.ok false)
    (hlen : s.messageQueue.length < 50) :
    ∃ t, publish w m s = Except.ok (true, t) ∧
      t.messageQueue = s.messageQueue ++ [m] ∧
      t.messageQueue.length = s.messageQueue.length + 1 ∧
      t.trace = s.trace ∧ t.states = s.states ∧ t.lastErrors = s.lastErrors := by
  rw [isConnected_eq_false_iff] at h
  obtain ⟨st, hst, hne⟩ := h
  refine ⟨{ s with messageQueue := s.messageQueue ++ [m] }, ?_, rfl, by simp, rfl, rfl, rfl⟩
  rw [publish_of_not_connected w m s st hst hne]
  have : ¬ MAX_QUEUE_SIZE ≤ s.messageQueue.length := by
    unfold MAX_QUEUE_SIZE
    omega
  simp [addToQueue, this]

/-- Witness of C5: a socket message published to a fresh manager. -/
theorem publish_not_connected_enqueues_witness :
    isConnected (ProtocolManager.new 0)
        (sampleMessage ProtocolType.WEBSOCKET "x").protocol = Except.ok false ∧
    (ProtocolManager.new 0).messageQueue.length < 50 ∧
    ∃ t, publish World.kind (sampleMessage ProtocolType.WEBSOCKET "x")
        (ProtocolManager.new 0) = Except.ok (true, t) ∧
      t.messageQueue = [sampleMessage ProtocolType.WEBSOCKET "x"] :=
  ⟨rfl, by decide,
    (publish_not_connected_enqueues World.kind (sampleMessage ProtocolType.WEBSOCKET "x")
      (ProtocolManager.new 0) rfl (by decide)).imp fun _ h => ⟨h.1, h.2.1⟩⟩

/-- C6: when the queue holds 50 entries and the transport of `m` is not
connected, `publish(m)` returns false and the manager, its queue included, is
exactly as before; `addToQueue(m)` itself returns false and changes nothing. -/
theorem publish_full_queue_rejects (w : World) (m : ProtocolMessage)
    (s : ProtocolManager) (h : isConnected s m.protocol = Except.ok false)
    (hlen : s.messageQueue.length = 50) :
    publish w m s = Except.ok (false, s) ∧ addToQueue m s = (false, s) ∧
      s.messageQueue.length = 50 := by
  rw [isConnected_eq_false_iff] at h
  obtain ⟨st, hst, hne⟩ := h
  have hq : addToQueue m s = (false, s) := by
    simp [addToQueue, MAX_QUEUE_SIZE, hlen]
  exact ⟨by rw [publish_of_not_connected w m s st hst hne, hq], hq, hlen⟩

/-- A fresh manager after `n` calls of `addToQueue` with a CoAP message, as
`n` calls of `publish` make them while CoAP is not connected. -/
def filledManager : Nat → ProtocolManager
  | 0 => ProtocolManager.new 0
  | n + 1 => (addToQueue (sampleMessage ProtocolType.COAP "x") (filledManager n)).2

theorem filledManager_states (n : Nat) :
    (filledManager n).states = fun _ => some ProtocolState.DISCONNECTED := by
  induction n with
  | zero => rfl
  | succ k ih => rw [filledManager, addToQueue_states, ih]

theorem filledManager_length (n : Nat) (h : n ≤ 50) :
    (filledManager n).messageQueue.length = n := by
  induction n with
  | zero => rfl
  | succ k ih =>
    have hk := ih (by omega)
    have hnot : ¬ MAX_QUEUE_SIZE ≤ (filledManager k).messageQueue.length := by
      unfold MAX_QUEUE_SIZE
      omega
    rw [filledManager, addToQueue, if_neg hnot]
    simp only [List.length_append, List.length_singleton, hk]

theorem filledManager_not_connected (n : Nat) (p : ProtocolType) :
    isConnected (filledManager n) p = Except.ok false := by
  simp [isConnected, filledManager_states]

/-- Witness of C6: the 51st CoAP message on a manager whose queue is full. -/
theorem publish_full_queue_rejects_witness :
    isConnected (filledManager 50) (sampleMessage ProtocolType.COAP "y").protocol =
      Except.ok false ∧
    (filledManager 50).messageQueue.length = 50 ∧
    publish World.kind (sampleMessage ProtocolType.COAP "y") (filledManager 50) =
      Except.ok (false, filledManager 50) :=
  ⟨filledManager_not_connected 50 _, filledManager_length 50 (Nat.le_refl 50),
    (publish_full_queue_rejects World.kind (sampleMessage ProtocolType.COAP "y")
      (filledManager 50) (filledManager_not_connected 50 _)
      (filledManager_length 50 (Nat.le_refl 50))).1⟩

/-- C9, evaluated on the code: after `connect(HTTPS)` on a fresh manager
`isConnected(HTTPS)` is false, and `publish` of an HTTPS message makes no
request at all: it returns true and the message is in the queue. -/
theorem https_publish_after_connect_enqueues (w : World) (efuseMac : Nat)
    (topic payload : String) (retain : Bool) (qos : Nat) :
    isConnected (connect w ProtocolType.HTTPS (ProtocolManager.new efuseMac)).2
      ProtocolType.HTTPS = Except.ok false ∧
    publish w
      { topic := topic, payload := payload, protocol := ProtocolType.HTTPS,
        retain := retain, qos := qos, isResponse := false }
      (connect w ProtocolType.HTTPS (ProtocolManager.new efuseMac)).2 =
      Except.ok (true,
        { (connect w ProtocolType.HTTPS (ProtocolManager.new efuseMac)).2 with
          messageQueue :=
            [{ topic := topic, payload := payload, protocol := ProtocolType.HTTPS,
               retain := retain, qos := qos, isResponse := false }] }) := by
  constructor
  · simp [connect, connectHttp, isConnected, ProtocolManager.setState, ProtocolManager.new]
  · simp [publish, connect, connectHttp, isConnected, ProtocolManager.setState,
      ProtocolManager.new, addToQueue, MAX_QUEUE_SIZE]

/-! ## The queue loop -/

theorem processLoop_stuck (w : World) (fuel it : Nat) (s : ProtocolManager)
    (hall : ∀ p, s.states p ≠ none)
    (hlen : s.messageQueue.length < MAX_QUEUE_SIZE)
    (hex : ∃ j m, it ≤ j ∧ s.messageQueue[j]? = some m ∧
      s.states m.protocol ≠ some ProtocolState.CONNECTED) :
    processLoop w fuel it s = Except.error Fault.outOfFuel := by
  induction fuel generalizing it s with
  | zero => rfl
  | succ n ih =>
    obtain ⟨j, m, hij, hj, hm⟩ := hex
    obtain ⟨hjlt, hjm⟩ := List.getElem?_eq_some.mp hj
    have hit : it < s.messageQueue.length := by omega
    rw [processLoop, List.getElem?_eq_getElem hit]
    simp only
    cases hst : s.states (s.messageQueue[it]).protocol with
    | none => exact absurd hst (hall _)
    | some st =>
      by_cases hc : st = ProtocolState.CONNECTED
      · subst hc
        rw [publish_of_connected w _ s hst]
        have hq := publishSwitch_messageQueue w (s.messageQueue[it]) s
        have hs := publishSwitch_states w (s.messageQueue[it]) s
        have hne : j ≠ it := by
          intro hji
          subst hji
          rw [hjm] at hst
          exact hm hst
        rcases hps : publishSwitch w (s.messageQueue[it]) s with ⟨r, s1⟩
        rw [hps] at hq hs
        simp only at hq hs
        cases r with
        | false =>
          simp only
          apply ih
          · rw [hs]; exact hall
          · rw [hq]; exact hlen
          · exact ⟨j, m, by omega, by rw [hq]; exact hj, by rw [hs]; exact hm⟩
        | true =>
          simp only
          apply ih
          · exact fun p => by simpa [hs] using hall p
          · have := List.length_eraseIdx_le s1.messageQueue it
            simp only [hq] at this ⊢
            omega
          · refine ⟨j - 1, m, by omega, ?_, by simpa [hs] using hm⟩
            simp only [hq]
            rw [List.getElem?_eraseIdx_of_ge _ _ _ (by omega)]
            have : j - 1 + 1 = j := by omega
            rw [this]
            exact hj
      · rw [publish_of_not_connected w _ s st hst hc]
        have hnot : ¬ MAX_QUEUE_SIZE ≤ s.messageQueue.length := by omega
        simp only [addToQueue, ge_iff_le, hnot, if_false]
        apply ih
        · exact hall
        · simp only [List.eraseIdx_append_of_lt_length hit, List.length_append,
            List.length_eraseIdx, hit, if_true, List.length_singleton]
          omega
        · refine ⟨s.messageQueue.length - 1, s.messageQueue[it], by omega, ?_, ?_⟩
          · simp only [List.eraseIdx_append_of_lt_length hit]
            have hl : (s.messageQueue.eraseIdx it).length = s.messageQueue.length - 1 := by
              simp [List.length_eraseIdx, hit]
            rw [← hl]
            exact List.getElem?_concat_length _ _
          · simp only [hst]
            simpa using hc

/-- The example of the specification: a fresh manager on which a custom
message `A` and a CoAP message `B` were published, and then `connect(CUSTOM)`
was called.  The queue is `[A, B]`; `A` is deliverable (its transport is
connected and always succeeds), `B` is not (its transport is not connected). -/
def drainExample (efuseMac : Nat) : ProtocolManager :=
  (connectCustom
    (addToQueue (sampleMessage ProtocolType.COAP "B")
      (addToQueue (sampleMessage ProtocolType.CUSTOM "A")
        (ProtocolManager.new efuseMac)).2).2).2

theorem drainExample_reachable (efuseMac : Nat) : Reachable (drainExample efuseMac) := by
  have h0 := Reachable.init efuseMac
  have h1 := Reachable.step World.quiet (Op.publish (sampleMessage ProtocolType.CUSTOM "A"))
    _ _ h0 rfl
  have h2 := Reachable.step World.quiet (Op.publish (sampleMessage ProtocolType.COAP "B"))
    _ _ h1 rfl
  exact Reachable.step World.quiet (Op.connect ProtocolType.CUSTOM) _ _ h2 rfl

/-- C1, evaluated on the code: the manager of `drainExample` is reachable, its
queue is `[A, B]` with `A` deliverable and the transport of `B` not connected,
and neither `processMessageQueue` nor `update` returns on it, whatever the
libraries answer and however much fuel is given: `publish(B)` puts a copy of
`B` at the tail and returns true, `B` is erased, and the loop goes on to the
copy.  The queue `[B]` the claim promises is never handed back. -/
theorem drain_example_never_returns (w : World) (efuseMac fuel : Nat) :
    Reachable (drainExample efuseMac) ∧
    (drainExample efuseMac).messageQueue =
      [sampleMessage ProtocolType.CUSTOM "A", sampleMessage ProtocolType.COAP "B"] ∧
    isConnected (drainExample efuseMac) ProtocolType.CUSTOM = Except.ok true ∧
    isConnected (drainExample efuseMac) ProtocolType.COAP = Except.ok false ∧
    processMessageQueue w fuel (drainExample efuseMac) = Except.error Fault.outOfFuel ∧
    update w fuel (drainExample efuseMac) = Except.error Fault.outOfFuel := by
  have hstuck : processMessageQueue w fuel (drainExample efuseMac) =
      Except.error Fault.outOfFuel := by
    have hne : (drainExample efuseMac).messageQueue.isEmpty = false := rfl
    rw [processMessageQueue, hne]
    apply processLoop_stuck
    · intro p
      cases p <;> simp [drainExample, connectCustom, addToQueue, ProtocolManager.setState,
        ProtocolManager.new, MAX_QUEUE_SIZE]
    · show 2 < MAX_QUEUE_SIZE
      decide
    · refine ⟨1, sampleMessage ProtocolType.COAP "B", Nat.zero_le _, rfl, ?_⟩
      simp [drainExample, connectCustom, addToQueue, ProtocolManager.setState,
        ProtocolManager.new, sampleMessage, MAX_QUEUE_SIZE]
  exact ⟨drainExample_reachable efuseMac, rfl, rfl, rfl, hstuck, hstuck⟩

/-- C2, evaluated on the code: whenever every transport has a state, the queue
holds fewer than 50 entries and one of them is for a transport that is not
connected, `processMessageQueue` does not return, whatever the libraries
answer and however much fuel is given. -/
theorem processMessageQueue_never_returns (w : World) (fuel : Nat) (s : ProtocolManager)
    (hall : ∀ p, s.states p ≠ none)
    (hlen : s.messageQueue.length < 50)
    (hex : ∃ m ∈ s.messageQueue, isConnected s m.protocol = Except.ok false) :
    processMessageQueue w fuel s = Except.error Fault.outOfFuel := by
  obtain ⟨m, hmem, hm⟩ := hex
  obtain ⟨j, hj, hjm⟩ := List.getElem_of_mem hmem
  have hne : s.messageQueue.isEmpty = false := by
    cases hq : s.messageQueue with
    | nil => rw [hq] at hj; exact absurd hj (Nat.not_lt_zero _)
    | cons a l => rfl
  rw [processMessageQueue, hne]
  apply processLoop_stuck w fuel 0 s hall hlen
  refine ⟨j, m, Nat.zero_le _, ?_, ?_⟩
  · rw [List.getElem?_eq_getElem hj, hjm]
  · obtain ⟨st, hst, hc⟩ := (isConnected_eq_false_iff s m.protocol).mp hm
    rw [hst]
    simpa using hc

/-- Witness of C2: one socket message published to a fresh manager, then the
queue processed with fuel for a thousand iterations. -/
theorem processMessageQueue_never_returns_witness :
    (∀ p, (addToQueue (sampleMessage ProtocolType.WEBSOCKET "x")
      (ProtocolManager.new 0)).2.states p ≠ none) ∧
    processMessageQueue World.kind 1000
      (addToQueue (sampleMessage ProtocolType.WEBSOCKET "x") (ProtocolManager.new 0)).2 =
      Except.error Fault.outOfFuel :=
  ⟨fun p => by cases p <;> simp [addToQueue, ProtocolManager.new, MAX_QUEUE_SIZE],
    processMessageQueue_never_returns World.kind 1000
      (addToQueue (sampleMessage ProtocolType.WEBSOCKET "x") (ProtocolManager.new 0)).2
      (fun p => by cases p <;> simp [addToQueue, ProtocolManager.new, MAX_QUEUE_SIZE])
      (by decide)
      ⟨sampleMessage ProtocolType.WEBSOCKET "x", by simp [addToQueue, MAX_QUEUE_SIZE,
        ProtocolManager.new], rfl⟩⟩

/-! ## The bound on the retry queue -/

theorem publish_length_le (w : World) (m : ProtocolMessage) (s t : ProtocolManager)
    (r : Bool) (h : publish w m s = Except.ok (r, t))
    (hb : s.messageQueue.length ≤ MAX_QUEUE_SIZE) :
    t.messageQueue.length ≤ MAX_QUEUE_SIZE := by
  cases hst : s.states m.protocol with
  | none => simp [publish, isConnected, hst] at h
  | some st =>
    by_cases hc : st = ProtocolState.CONNECTED
    · subst hc
      rw [publish_of_connected w m s hst] at h
      have hq := publishSwitch_messageQueue w m s
      simp only [Except.ok.injEq] at h
      rw [h] at hq
      simp only at hq
      rw [hq]
      exact hb
    · rw [publish_of_not_connected w m s st hst hc] at h
      simp only [Except.ok.injEq] at h
      unfold addToQueue at h
      split at h
      · simp only [Prod.mk.injEq] at h
        rw [← h.2]
        exact hb
      · simp only [Prod.mk.injEq] at h
        rw [← h.2]
        simp only [List.length_append, List.length_singleton]
        omega

theorem processLoop_length_le (w : World) (fuel it : Nat) (s t : ProtocolManager)
    (h : processLoop w fuel it s = Except.ok t)
    (hb : s.messageQueue.length ≤ MAX_QUEUE_SIZE) :
    t.messageQueue.length ≤ MAX_QUEUE_SIZE := by
  induction fuel generalizing it s with
  | zero => simp [processLoop] at h
  | succ n ih =>
    rw [processLoop] at h
    split at h
    · simp only [Except.ok.injEq] at h
      rw [← h]
      exact hb
    · rename_i m hm
      split at h
      · simp at h
      · rename_i s1 hp
        have h1 := publish_length_le w m s s1 true hp hb
        apply ih _ _ h
        exact Nat.le_trans (List.length_eraseIdx_le _ _) h1
      · rename_i s1 hp
        exact ih _ _ h (publish_length_le w m s s1 false hp hb)

theorem serviceLoops_messageQueue (w : World) (s : ProtocolManager) :
    (serviceLoops w s).messageQueue = s.messageQueue := by
  have touch : ∀ (u : ProtocolManager) (p : ProtocolType),
      (u.touchState p).2.messageQueue = u.messageQueue := by
    intro u p
    unfold ProtocolManager.touchState
    split <;> rfl
  have hm : ∀ u : ProtocolManager, (mqttLoop w u).messageQueue = u.messageQueue := by
    intro u
    simp [mqttLoop, foldl_deliverMqtt_messageQueue, ProtocolManager.emit]
  have hw : ∀ u : ProtocolManager, (wsLoop w u).messageQueue = u.messageQueue := by
    intro u
    simp [wsLoop, foldl_deliverWs_messageQueue, ProtocolManager.emit]
  simp only [serviceLoops]
  split <;> split <;> simp [hm, hw, touch]

theorem saveConfig_messageQueue (w : World) (s : ProtocolManager) :
    (saveConfig w s).2.messageQueue = s.messageQueue := by
  simp only [saveConfig]
  split
  · rfl
  · split <;> rfl

theorem loadConfig_messageQueue (w : World) (s : ProtocolManager) :
    (loadConfig w s).2.messageQueue = s.messageQueue := by
  simp only [loadConfig]
  split
  · rw [saveConfig_messageQueue]
    rfl
  · split
    · rfl
    · split <;> rfl

theorem connect_messageQueue (w : World) (p : ProtocolType) (s : ProtocolManager) :
    (connect w p s).2.messageQueue = s.messageQueue := by
  cases p
  · simp only [connect, connectMqtt]
    split <;> rfl
  · rfl
  · rfl
  · rfl
  · simp only [connect, connectCoap]
    split <;> rfl
  · rfl

theorem subscribe_messageQueue (w : World) (topic : String) (p : ProtocolType)
    (s : ProtocolManager) : (subscribe w topic p s).2.messageQueue = s.messageQueue := by
  cases p <;> rfl

theorem handleWebSocketEvent_messageQueue (type : WStype_t) (payload : String)
    (s : ProtocolManager) :
    (handleWebSocketEvent type payload s).messageQueue = s.messageQueue := by
  simp only [handleWebSocketEvent]
  cases type <;> simp only [] <;> first | rfl | (split <;> rfl)

theorem step_length_le (w : World) (op : Op) (s t : ProtocolManager)
    (h : step w op s = Except.ok t) (hb : s.messageQueue.length ≤ MAX_QUEUE_SIZE) :
    t.messageQueue.length ≤ MAX_QUEUE_SIZE := by
  cases op with
  | update fuel =>
    simp only [step, update, processMessageQueue] at h
    split at h
    · simp only [Except.ok.injEq] at h
      rw [← h, serviceLoops_messageQueue]
      exact hb
    · exact processLoop_length_le w fuel 0 _ t h (by rw [serviceLoops_messageQueue]; exact hb)
  | publish message =>
    simp only [step] at h
    split at h
    · rename_i r s1 hp
      simp only [Except.ok.injEq] at h
      rw [← h]
      exact publish_length_le w message s s1 r hp hb
    · simp at h
  | begin =>
    simp only [step, Except.ok.injEq] at h
    rw [← h, begin, loadConfig_messageQueue]
    exact hb
  | connect protocol =>
    simp only [step, Except.ok.injEq] at h
    rw [← h, connect_messageQueue]
    exact hb
  | disconnect protocol =>
    simp only [step, Except.ok.injEq] at h
    rw [← h, disconnect_messageQueue]
    exact hb
  | subscribe topic protocol =>
    simp only [step, Except.ok.injEq] at h
    rw [← h, subscribe_messageQueue]
    exact hb
  | setConfig newConfig =>
    simp only [step, Except.ok.injEq] at h
    rw [← h]
    simp only [setConfig, validateConfig, if_true, saveConfig_messageQueue]
    exact hb
  | saveConfig =>
    simp only [step, Except.ok.injEq] at h
    rw [← h, saveConfig_messageQueue]
    exact hb
  | loadConfig =>
    simp only [step, Except.ok.injEq] at h
    rw [← h, loadConfig_messageQueue]
    exact hb
  | webSocketEvent type payload =>
    simp only [step, Except.ok.injEq] at h
    rw [← h, handleWebSocketEvent_messageQueue]
    exact hb
  | mqttMessage topic payload =>
    simp only [step, Except.ok.injEq] at h
    rw [← h]
    simp only [handleMqttMessage]
    split <;> exact hb
  | coapResponse messageid payload =>
    simp only [step, Except.ok.injEq] at h
    rw [← h]
    simp only [handleCoapResponse]
    split <;> exact hb
  | setMessageCallback nonNull =>
    simp only [step, Except.ok.injEq] at h
    rw [← h]
    exact hb
  | setMqttCallback =>
    simp only [step, Except.ok.injEq] at h
    rw [← h]
    exact hb
  | setWebSocketCallback =>
    simp only [step, Except.ok.injEq] at h
    rw [← h]
    exact hb
  | setCoapCallback =>
    simp only [step, Except.ok.injEq] at h
    rw [← h]
    exact hb

/-- C7: in every state reachable from construction by `begin`, `update`,
`connect`, `disconnect`, `publish`, `subscribe`, `setConfig`, the callback
setters and inbound events, whatever the libraries answer, the retry queue
holds at most 50 entries. -/
theorem reachable_queue_bounded (s : ProtocolManager) (h : Reachable s) :
    s.messageQueue.length ≤ 50 := by
  induction h with
  | init efuseMac => simp [ProtocolManager.new]
  | step w op s t _ hstep ih => exact step_length_le w op s t hstep ih

/-- The manager after one socket message was published to a fresh manager,
`connect(WEBSOCKET)` was called, and one `update` tick ran in a world where
every call succeeds. -/
def afterTick : ProtocolManager :=
  match update World.kind 3
    (connect World.kind ProtocolType.WEBSOCKET
      (addToQueue (sampleMessage ProtocolType.WEBSOCKET "x") (ProtocolManager.new 0)).2).2 with
  | Except.ok t => t
  | Except.error _ => ProtocolManager.new 0

theorem afterTick_reachable : Reachable afterTick := by
  have h0 := Reachable.init 0
  have h1 := Reachable.step World.kind (Op.publish (sampleMessage ProtocolType.WEBSOCKET "x"))
    _ _ h0 rfl
  have h2 := Reachable.step World.kind (Op.connect ProtocolType.WEBSOCKET) _ _ h1 rfl
  exact Reachable.step World.kind (Op.update 3) _ afterTick h2 rfl

/-- Witness of C7: the manager after a publish, a connect and an `update`
tick that returned. -/
theorem reachable_queue_bounded_witness :
    Reachable afterTick ∧ afterTick.messageQueue.length ≤ 50 :=
  ⟨afterTick_reachable, reachable_queue_bounded afterTick afterTick_reachable⟩

/-! ## The socket scenario -/

theorem deliverWs_eq_self (s : ProtocolManager) (e : WsEvent)
    (hh : s.wsHandler = Handler.manager) (hcb : s.messageCallback = false)
    (hc : s.states ProtocolType.WEBSOCKET = some ProtocolState.CONNECTED)
    (he : e.type ≠ WStype_t.WStype_DISCONNECTED) : deliverWs s e = s := by
  unfold deliverWs
  rw [hh]
  simp only [handleWebSocketEvent]
  cases ht : e.type <;> simp only []
  · exact absurd ht he
  · show s.setState ProtocolType.WEBSOCKET ProtocolState.CONNECTED = s
    unfold ProtocolManager.setState
    rw [← hc, Function.update_eq_self]
  · simp [hcb]

theorem foldl_deliverWs_eq_self (evs : List WsEvent) (s : ProtocolManager)
    (hh : s.wsHandler = Handler.manager) (hcb : s.messageCallback = false)
    (hc : s.states ProtocolType.WEBSOCKET = some ProtocolState.CONNECTED)
    (he : ∀ e ∈ evs, e.type ≠ WStype_t.WStype_DISCONNECTED) :
    evs.foldl deliverWs s = s := by
  induction evs with
  | nil => rfl
  | cons e rest ih =>
    rw [List.foldl_cons, deliverWs_eq_self s e hh hcb hc (he e (List.mem_cons_self _ _))]
    exact ih fun x hx => he x (List.mem_cons_of_mem _ hx)

theorem processLoop_sends_all (w : World) (hsend : ∀ n, w.wsSendTXT n = true) :
    ∀ (q : List ProtocolMessage) (s : ProtocolManager) (fuel : Nat),
      s.messageQueue = q → (∀ m ∈ q, m.protocol = ProtocolType.WEBSOCKET) →
      s.states ProtocolType.WEBSOCKET = some ProtocolState.CONNECTED → q.length < fuel →
      processLoop w fuel 0 s = Except.ok
        { s with messageQueue := [],
                 trace := s.trace ++ q.map fun m => Call.wsSendTXT m.payload } := by
  intro q
  induction q with
  | nil =>
    intro s fuel hq _ _ hf
    obtain ⟨f, rfl⟩ : ∃ f, fuel = f + 1 := ⟨fuel - 1, by omega⟩
    rw [processLoop, hq]
    simp only [List.getElem?_nil, List.map_nil, List.append_nil]
    rw [← hq]
  | cons m rest ih =>
    intro s fuel hq hall hc hf
    obtain ⟨f, rfl⟩ : ∃ f, fuel = f + 1 := ⟨fuel - 1, by omega⟩
    have hm : m.protocol = ProtocolType.WEBSOCKET := hall m (List.mem_cons_self _ _)
    have hget : s.messageQueue[0]? = some m := by rw [hq]; simp
    have hpub : publish w m s =
        Except.ok (true, s.emit (Call.wsSendTXT m.payload)) := by
      rw [publish_of_connected w m s (by rw [hm]; exact hc)]
      simp only [publishSwitch, hm, hsend]
    rw [processLoop, hget]
    simp only [hpub]
    have he : (s.emit (Call.wsSendTXT m.payload)).messageQueue.eraseIdx 0 = rest := by
      simp [ProtocolManager.emit, hq]
    have key := ih { s.emit (Call.wsSendTXT m.payload) with messageQueue := rest } f rfl
      (fun x hx => hall x (List.mem_cons_of_mem _ hx)) hc
      (by simp only [List.length_cons] at hf; omega)
    rw [he, key]
    simp [ProtocolManager.emit]

/-- C10, amended: on a freshly constructed manager three socket messages
published in turn each return true and are queued in arrival order;
`connect(WEBSOCKET)` then returns true; and when every socket send succeeds
and the socket's event loop reports no disconnection during the tick, the next
`update` returns, having sent the three payloads in arrival order, with the
queue empty. -/
theorem socket_scenario_drains (w : World) (efuseMac : Nat) (m1 m2 m3 : ProtocolMessage)
    (h1 : m1.protocol = ProtocolType.WEBSOCKET) (h2 : m2.protocol = ProtocolType.WEBSOCKET)
    (h3 : m3.protocol = ProtocolType.WEBSOCKET)
    (hsend : ∀ n, w.wsSendTXT n = true)
    (hloop : ∀ n, ∀ e ∈ w.wsLoop n, e.type ≠ WStype_t.WStype_DISCONNECTED)
    (fuel : Nat) (hfuel : 4 ≤ fuel) :
    ∃ s1 s2 s3 s4 s5,
      getState (ProtocolManager.new efuseMac) ProtocolType.WEBSOCKET =
        Except.ok ProtocolState.DISCONNECTED ∧
      (ProtocolManager.new efuseMac).messageQueue = [] ∧
      publish w m1 (ProtocolManager.new efuseMac) = Except.ok (true, s1) ∧
      s1.messageQueue = [m1] ∧
      publish w m2 s1 = Except.ok (true, s2) ∧ s2.messageQueue = [m1, m2] ∧
      publish w m3 s2 = Except.ok (true, s3) ∧ s3.messageQueue = [m1, m2, m3] ∧
      connect w ProtocolType.WEBSOCKET s3 = (true, s4) ∧
      s4.messageQueue = [m1, m2, m3] ∧
      update w fuel s4 = Except.ok s5 ∧ s5.messageQueue = [] ∧
      s5.trace = s4.trace ++ [Call.wsLoop, Call.wsSendTXT m1.payload,
        Call.wsSendTXT m2.payload, Call.wsSendTXT m3.payload] := by
  let s1 : ProtocolManager := { ProtocolManager.new efuseMac with messageQueue := [m1] }
  let s2 : ProtocolManager := { ProtocolManager.new efuseMac with messageQueue := [m1, m2] }
  let s3 : ProtocolManager :=
    { ProtocolManager.new efuseMac with messageQueue := [m1, m2, m3] }
  let s4 : ProtocolManager := (connectWebSocket s3).2
  have hs4 : s4.states ProtocolType.WEBSOCKET = some ProtocolState.CONNECTED := by
    simp [s4, connectWebSocket, ProtocolManager.setState]
  have hservice : serviceLoops w s4 = s4.emit Call.wsLoop := by
    have hm : s4.states ProtocolType.MQTT = some ProtocolState.DISCONNECTED := by
      simp [s4, s3, connectWebSocket, ProtocolManager.setState, ProtocolManager.emit,
        ProtocolManager.new]
    simp only [serviceLoops, ProtocolManager.touchState, hm, hs4]
    simp only [wsLoop]
    exact foldl_deliverWs_eq_self _ _ rfl rfl hs4 (hloop _)
  have hdrain := processLoop_sends_all w hsend [m1, m2, m3] (s4.emit Call.wsLoop) fuel rfl
    (by simp [h1, h2, h3]) hs4 (by simp only [List.length_cons, List.length_nil]; omega)
  let s5 : ProtocolManager :=
    { s4.emit Call.wsLoop with
      messageQueue := [],
      trace := (s4.emit Call.wsLoop).trace ++
        [m1, m2, m3].map fun m => Call.wsSendTXT m.payload }
  refine ⟨s1, s2, s3, s4, s5, rfl, rfl, ?_, rfl, ?_, rfl, ?_, rfl, rfl, rfl, ?_, rfl, ?_⟩
  · simp [publish, isConnected, h1, ProtocolManager.new, addToQueue, MAX_QUEUE_SIZE, s1]
  · simp [publish, isConnected, h2, ProtocolManager.new, addToQueue, MAX_QUEUE_SIZE, s1, s2]
  · simp [publish, isConnected, h3, ProtocolManager.new, addToQueue, MAX_QUEUE_SIZE, s2, s3]
  · rw [update, hservice, processMessageQueue]
    have hne : (s4.emit Call.wsLoop).messageQueue.isEmpty = false := rfl
    rw [hne]
    exact hdrain
  · simp [ProtocolManager.emit]

/-- Witness of C10, amended: the payloads "1", "2", "3" in a world where every call
succeeds, with fuel for four iterations. -/
theorem socket_scenario_drains_witness :
    (∀ n, World.kind.wsSendTXT n = true) ∧ 4 ≤ 4 ∧
    ∃ s1 s2 s3 s4 s5,
      getState (ProtocolManager.new 0) ProtocolType.WEBSOCKET =
        Except.ok ProtocolState.DISCONNECTED ∧
      (ProtocolManager.new 0).messageQueue = [] ∧
      publish World.kind (sampleMessage ProtocolType.WEBSOCKET "1") (ProtocolManager.new 0) =
        Except.ok (true, s1) ∧
      s1.messageQueue = [sampleMessage ProtocolType.WEBSOCKET "1"] ∧
      publish World.kind (sampleMessage ProtocolType.WEBSOCKET "2") s1 =
        Except.ok (true, s2) ∧
      s2.messageQueue = [sampleMessage ProtocolType.WEBSOCKET "1",
        sampleMessage ProtocolType.WEBSOCKET "2"] ∧
      publish World.kind (sampleMessage ProtocolType.WEBSOCKET "3") s2 =
        Except.ok (true, s3) ∧
      s3.messageQueue = [sampleMessage ProtocolType.WEBSOCKET "1",
        sampleMessage ProtocolType.WEBSOCKET "2", sampleMessage ProtocolType.WEBSOCKET "3"] ∧
      connect World.kind ProtocolType.WEBSOCKET s3 = (true, s4) ∧
      s4.messageQueue = [sampleMessage ProtocolType.WEBSOCKET "1",
        sampleMessage ProtocolType.WEBSOCKET "2", sampleMessage ProtocolType.WEBSOCKET "3"] ∧
      update World.kind 4 s4 = Except.ok s5 ∧ s5.messageQueue = [] ∧
      s5.trace = s4.trace ++ [Call.wsLoop,
        Call.wsSendTXT (sampleMessage ProtocolType.WEBSOCKET "1").payload,
        Call.wsSendTXT (sampleMessage ProtocolType.WEBSOCKET "2").payload,
        Call.wsSendTXT (sampleMessage ProtocolType.WEBSOCKET "3").payload] :=
  ⟨fun _ => rfl, Nat.le_refl 4,
    socket_scenario_drains World.kind 0 (sampleMessage ProtocolType.WEBSOCKET "1")
      (sampleMessage ProtocolType.WEBSOCKET "2") (sampleMessage ProtocolType.WEBSOCKET "3")
      rfl rfl rfl (fun _ => rfl) (fun _ _ h => absurd h (List.not_mem_nil _)) 4
      (Nat.le_refl 4)⟩

/-- A world in which every library call succeeds, every socket send among
them, and in which each `webSocket.loop()` reports that the socket was
disconnected. -/
def World.dropping : World :=
  { World.kind with
    wsLoop := fun _ => [{ type := WStype_t.WStype_DISCONNECTED, payload := "" }] }

/-- A fresh manager after three socket messages were published and
`connect(WEBSOCKET)` was called, in the world `World.dropping`. -/
def socketQueued : ProtocolManager :=
  (connect World.dropping ProtocolType.WEBSOCKET
    (addToQueue (sampleMessage ProtocolType.WEBSOCKET "3")
      (addToQueue (sampleMessage ProtocolType.WEBSOCKET "2")
        (addToQueue (sampleMessage ProtocolType.WEBSOCKET "1")
          (ProtocolManager.new 0)).2).2).2).2

theorem socketQueued_serviced :
    (serviceLoops World.dropping socketQueued).messageQueue =
      [sampleMessage ProtocolType.WEBSOCKET "1", sampleMessage ProtocolType.WEBSOCKET "2",
        sampleMessage ProtocolType.WEBSOCKET "3"] ∧
    (serviceLoops World.dropping socketQueued).states =
      Function.update socketQueued.states ProtocolType.WEBSOCKET
        (some ProtocolState.DISCONNECTED) := by
  constructor
  · rw [serviceLoops_messageQueue]
    rfl
  · funext p
    cases p <;> rfl

/-- C10 as stated fails: every socket send succeeds in `World.dropping`, the
three publishes on a fresh manager return true and queue the messages in
order, `connect(WEBSOCKET)` returns true, and yet the next `update` does not
return, whatever the fuel: its `webSocket.loop()` reports a disconnection, the
handler sets the socket to `DISCONNECTED`, and the queue is then processed
with its three entries for a transport that is not connected. -/
theorem socket_scenario_hangs_on_disconnect :
    (∀ n, World.dropping.wsSendTXT n = true) ∧
    publish World.dropping (sampleMessage ProtocolType.WEBSOCKET "1") (ProtocolManager.new 0) =
      Except.ok (true,
        (addToQueue (sampleMessage ProtocolType.WEBSOCKET "1") (ProtocolManager.new 0)).2) ∧
    publish World.dropping (sampleMessage ProtocolType.WEBSOCKET "2")
        (addToQueue (sampleMessage ProtocolType.WEBSOCKET "1") (ProtocolManager.new 0)).2 =
      Except.ok (true,
        (addToQueue (sampleMessage ProtocolType.WEBSOCKET "2")
          (addToQueue (sampleMessage ProtocolType.WEBSOCKET "1")
            (ProtocolManager.new 0)).2).2) ∧
    publish World.dropping (sampleMessage ProtocolType.WEBSOCKET "3")
        (addToQueue (sampleMessage ProtocolType.WEBSOCKET "2")
          (addToQueue (sampleMessage ProtocolType.WEBSOCKET "1")
            (ProtocolManager.new 0)).2).2 =
      Except.ok (true,
        (addToQueue (sampleMessage ProtocolType.WEBSOCKET "3")
          (addToQueue (sampleMessage ProtocolType.WEBSOCKET "2")
            (addToQueue (sampleMessage ProtocolType.WEBSOCKET "1")
              (ProtocolManager.new 0)).2).2).2) ∧
    connect World.dropping ProtocolType.WEBSOCKET
        (addToQueue (sampleMessage ProtocolType.WEBSOCKET "3")
          (addToQueue (sampleMessage ProtocolType.WEBSOCKET "2")
            (addToQueue (sampleMessage ProtocolType.WEBSOCKET "1")
              (ProtocolManager.new 0)).2).2).2 = (true, socketQueued) ∧
    socketQueued.messageQueue =
      [sampleMessage ProtocolType.WEBSOCKET "1", sampleMessage ProtocolType.WEBSOCKET "2",
        sampleMessage ProtocolType.WEBSOCKET "3"] ∧
    isConnected socketQueued ProtocolType.WEBSOCKET = Except.ok true ∧
    ∀ fuel, update World.dropping fuel socketQueued = Except.error Fault.outOfFuel := by
  refine ⟨fun _ => rfl, rfl, rfl, rfl, rfl, rfl, rfl, ?_⟩
  intro fuel
  obtain ⟨hq, hs⟩ := socketQueued_serviced
  have hne : (serviceLoops World.dropping socketQueued).messageQueue.isEmpty = false := by
    rw [hq]
    rfl
  rw [update, processMessageQueue, hne]
  apply processLoop_stuck
  · intro p
    rw [hs]
    by_cases hp : p = ProtocolType.WEBSOCKET
    · subst hp
      simp
    · rw [Function.update_noteq hp]
      cases p <;> simp [socketQueued, connect, connectWebSocket, addToQueue,
        ProtocolManager.setState, ProtocolManager.emit, ProtocolManager.new, MAX_QUEUE_SIZE]
  · rw [hq]
    show 3 < MAX_QUEUE_SIZE
    decide
  · refine ⟨0, sampleMessage ProtocolType.WEBSOCKET "1", Nat.le_refl 0, by rw [hq]; rfl, ?_⟩
    rw [hs]
    simp [sampleMessage]

/-! ## Last errors -/

theorem saveConfig_lastErrors (w : World) (s : ProtocolManager) :
    (saveConfig w s).2.lastErrors = s.lastErrors := by
  simp only [saveConfig]
  split
  · rfl
  · split <;> rfl

theorem loadConfig_lastErrors (w : World) (s : ProtocolManager) :
    (loadConfig w s).2.lastErrors = s.lastErrors := by
  simp only [loadConfig]
  split
  · rw [saveConfig_lastErrors]
    rfl
  · split
    · rfl
    · split <;> rfl

/-- C11, evaluated on the code: the constructor fills `states` but leaves
`lastErrors` empty, so on a freshly constructed manager, and still after
`begin`, `getLastError(t)` fails for each of the six transports:
`lastErrors.at(t)` finds no entry.  It returns no string, empty or other. -/
theorem getLastError_fresh_fails (w : World) (efuseMac : Nat) (t : ProtocolType) :
    (ProtocolManager.new efuseMac).lastErrors t = none ∧
    getLastError (ProtocolManager.new efuseMac) t = Except.error Fault.outOfRange ∧
    getLastError (begin w (ProtocolManager.new efuseMac)) t =
      Except.error Fault.outOfRange := by
  refine ⟨rfl, rfl, ?_⟩
  simp only [getLastError, begin, loadConfig_lastErrors]
  rfl

/-- C12: after `setError(t, x)`, `getLastError(t)` returns exactly `x`,
whatever was recorded before, and for every other transport the last-error
entry, and so what `getLastError` answers for it, is as before; no connection
state changes. -/
theorem setError_overwrites_only_own (t u : ProtocolType) (x : String)
    (s : ProtocolManager) (h : u ≠ t) :
    getLastError (setError t x s) t = Except.ok x ∧
    (setError t x s).lastErrors u = s.lastErrors u ∧
    getLastError (setError t x s) u = getLastError s u ∧
    (setError t x s).states = s.states := by
  have hu : (setError t x s).lastErrors u = s.lastErrors u := by
    simp [setError, logProtocolEvent, ProtocolManager.emit, Function.update_noteq h]
  refine ⟨?_, hu, ?_, rfl⟩
  · simp [getLastError, setError, logProtocolEvent, ProtocolManager.emit]
  · simp only [getLastError, hu]

/-- Witness of C12: a second error on the broker after a first one, seen from
the broker and from CoAP. -/
theorem setError_overwrites_only_own_witness :
    ProtocolType.COAP ≠ ProtocolType.MQTT ∧
    getLastError
      (setError ProtocolType.MQTT "y" (setError ProtocolType.MQTT "x" (ProtocolManager.new 0)))
      ProtocolType.MQTT = Except.ok "y" ∧
    (setError ProtocolType.MQTT "y"
      (setError ProtocolType.MQTT "x" (ProtocolManager.new 0))).lastErrors ProtocolType.COAP =
      (setError ProtocolType.MQTT "x" (ProtocolManager.new 0)).lastErrors ProtocolType.COAP :=
  ⟨by decide,
    (setError_overwrites_only_own ProtocolType.MQTT ProtocolType.COAP "y"
      (setError ProtocolType.MQTT "x" (ProtocolManager.new 0)) (by decide)).1,
    (setError_overwrites_only_own ProtocolType.MQTT ProtocolType.COAP "y"
      (setError ProtocolType.MQTT "x" (ProtocolManager.new 0)) (by decide)).2.1⟩

/-! ## Failed connects and the HTTP status -/

/-- C14: whenever `connect(t)` returns false, `getState(t)` is `ERROR`,
`isConnected(t)` is false and `getLastError(t)` returns a non-empty string.
(Only the broker and CoAP connects can return false.) -/
theorem connect_false_records_error (w : World) (t : ProtocolType) (s : ProtocolManager)
    (h : (connect w t s).1 = false) :
    getState (connect w t s).2 t = Except.ok ProtocolState.ERROR ∧
    isConnected (connect w t s).2 t = Except.ok false ∧
    ∃ e, getLastError (connect w t s).2 t = Except.ok e ∧ e ≠ "" := by
  cases t with
  | MQTT =>
    simp only [connect, connectMqtt] at h ⊢
    split at h
    · simp at h
    · rename_i hc
      simp only [hc]
      refine ⟨?_, ?_, "Failed to connect to MQTT broker", ?_, by decide⟩ <;>
        simp [getState, isConnected, getLastError, setError, logProtocolEvent,
          ProtocolManager.emit, ProtocolManager.setState]
  | COAP =>
    simp only [connect, connectCoap] at h ⊢
    split at h
    · simp at h
    · rename_i hc
      simp only [hc]
      refine ⟨?_, ?_, "Failed to start CoAP server", ?_, by decide⟩ <;>
        simp [getState, isConnected, getLastError, setError, logProtocolEvent,
          ProtocolManager.emit, ProtocolManager.setState]
  | HTTP => simp [connect, connectHttp] at h
  | HTTPS => simp [connect, connectHttp] at h
  | WEBSOCKET => simp [connect, connectWebSocket] at h
  | CUSTOM => simp [connect, connectCustom] at h

/-- Witness of C14: `connect(MQTT)` against a broker that refuses. -/
theorem connect_false_records_error_witness :
    (connect World.quiet ProtocolType.MQTT (ProtocolManager.new 0)).1 = false ∧
    getState (connect World.quiet ProtocolType.MQTT (ProtocolManager.new 0)).2
      ProtocolType.MQTT = Except.ok ProtocolState.ERROR ∧
    isConnected (connect World.quiet ProtocolType.MQTT (ProtocolManager.new 0)).2
      ProtocolType.MQTT = Except.ok false :=
  ⟨rfl,
    (connect_false_records_error World.quiet ProtocolType.MQTT (ProtocolManager.new 0) rfl).1,
    (connect_false_records_error World.quiet ProtocolType.MQTT
      (ProtocolManager.new 0) rfl).2.1⟩

/-- C15: `publishHttp` returns true exactly when the status code of the
request is 200; with any other code, 201, 202, 204 or a negative library
error code among them, it returns false.  It is the transport call `publish`
makes for an HTTP and for an HTTPS message. -/
theorem publishHttp_true_iff_status_200 (w : World) (m : ProtocolMessage)
    (s : ProtocolManager) :
    ((publishHttp w m s).1 = true ↔ w.httpPost s.now = 200) ∧
    ((publishHttp w m s).1 = false ↔ w.httpPost s.now ≠ 200) ∧
    (w.httpPost s.now ∈ [201, 202, 204, -1, -11] → (publishHttp w m s).1 = false) ∧
    (m.protocol = ProtocolType.HTTP ∨ m.protocol = ProtocolType.HTTPS →
      publishSwitch w m s = publishHttp w m s) := by
  refine ⟨?_, ?_, ?_, ?_⟩
  · simp [publishHttp, HTTP_CODE_OK]
  · simp [publishHttp, HTTP_CODE_OK]
  · intro hc
    have : w.httpPost s.now ≠ 200 := by
      intro h200
      rw [h200] at hc
      simp at hc
    simp [publishHttp, HTTP_CODE_OK, this]
  · intro hp
    unfold publishSwitch
    rcases hp with hp | hp <;> rw [hp]

/-! ## How the state table changes -/

/-- How the entry of transport `p` may change while the manager does anything
but connect or disconnect: it stays as it is, or it is the socket's entry and
a socket event set it to `CONNECTED` or `DISCONNECTED`, or it was absent and
`operator[]` inserted `DISCONNECTED`. -/
def KeyStep (p : ProtocolType) (a b : Option ProtocolState) : Prop :=
  b = a ∨
  (p = ProtocolType.WEBSOCKET ∧
    (b = some ProtocolState.CONNECTED ∨ b = some ProtocolState.DISCONNECTED)) ∨
  (a = none ∧ b = some ProtocolState.DISCONNECTED)

theorem keyStep_refl (p : ProtocolType) (a : Option ProtocolState) : KeyStep p a a :=
  Or.inl rfl

theorem keyStep_of_eq {p : ProtocolType} {a b : Option ProtocolState} (h : b = a) :
    KeyStep p a b :=
  Or.inl h

theorem keyStep_trans {p : ProtocolType} {a b c : Option ProtocolState}
    (h1 : KeyStep p a b) (h2 : KeyStep p b c) : KeyStep p a c := by
  rcases h2 with h2 | h2 | ⟨hb, hc⟩
  · rw [h2]
    exact h1
  · exact Or.inr (Or.inl h2)
  · rcases h1 with h1 | ⟨_, h1 | h1⟩ | ⟨_, h1⟩
    · exact Or.inr (Or.inr ⟨by rw [← h1]; exact hb, hc⟩)
    · rw [hb] at h1; cases h1
    · rw [hb] at h1; cases h1
    · rw [hb] at h1; cases h1

theorem setState_websocket_keyStep (s : ProtocolManager) (v : ProtocolState)
    (hv : v = ProtocolState.CONNECTED ∨ v = ProtocolState.DISCONNECTED) (p : ProtocolType) :
    KeyStep p (s.states p) ((s.setState ProtocolType.WEBSOCKET v).states p) := by
  by_cases hp : p = ProtocolType.WEBSOCKET
  · refine Or.inr (Or.inl ⟨hp, ?_⟩)
    subst hp
    rcases hv with hv | hv <;> simp [ProtocolManager.setState, hv]
  · exact Or.inl (by simp [ProtocolManager.setState, Function.update_noteq hp])

theorem handleWebSocketEvent_keyStep (type : WStype_t) (payload : String)
    (s : ProtocolManager) (p : ProtocolType) :
    KeyStep p (s.states p) ((handleWebSocketEvent type payload s).states p) := by
  cases type <;> simp only [handleWebSocketEvent]
  case WStype_DISCONNECTED => exact setState_websocket_keyStep s _ (Or.inr rfl) p
  case WStype_CONNECTED => exact setState_websocket_keyStep s _ (Or.inl rfl) p
  case WStype_TEXT => split <;> exact keyStep_refl _ _
  all_goals exact keyStep_refl _ _

theorem deliverWs_keyStep (s : ProtocolManager) (e : WsEvent) (p : ProtocolType) :
    KeyStep p (s.states p) ((deliverWs s e).states p) := by
  unfold deliverWs
  cases s.wsHandler with
  | unset => exact keyStep_refl _ _
  | user => exact keyStep_refl _ _
  | manager => exact handleWebSocketEvent_keyStep _ _ s p

theorem foldl_deliverWs_keyStep (evs : List WsEvent) (s : ProtocolManager)
    (p : ProtocolType) : KeyStep p (s.states p) ((evs.foldl deliverWs s).states p) := by
  induction evs generalizing s with
  | nil => exact keyStep_refl _ _
  | cons e rest ih =>
    rw [List.foldl_cons]
    exact keyStep_trans (deliverWs_keyStep s e p) (ih _)

theorem deliverMqtt_states (s : ProtocolManager) (e : MqttEvent) :
    (deliverMqtt s e).states = s.states := by
  unfold deliverMqtt
  cases s.mqttHandler with
  | unset => rfl
  | user => rfl
  | manager =>
      simp only [handleMqttMessage]
      split <;> rfl

theorem foldl_deliverMqtt_states (evs : List MqttEvent) (s : ProtocolManager) :
    (evs.foldl deliverMqtt s).states = s.states := by
  induction evs generalizing s with
  | nil => rfl
  | cons e rest ih => rw [List.foldl_cons, ih, deliverMqtt_states]

theorem mqttLoop_states (w : World) (s : ProtocolManager) :
    (mqttLoop w s).states = s.states := by
  rw [mqttLoop, foldl_deliverMqtt_states]
  rfl

theorem wsLoop_keyStep (w : World) (s : ProtocolManager) (p : ProtocolType) :
    KeyStep p (s.states p) ((wsLoop w s).states p) := by
  rw [wsLoop]
  exact foldl_deliverWs_keyStep _ (s.emit Call.wsLoop) p

theorem touchState_keyStep (s : ProtocolManager) (q p : ProtocolType) :
    KeyStep p (s.states p) ((s.touchState q).2.states p) := by
  unfold ProtocolManager.touchState
  cases hq : s.states q with
  | some st => exact keyStep_refl _ _
  | none =>
    by_cases hp : p = q
    · subst hp
      exact Or.inr (Or.inr ⟨hq, by simp [ProtocolManager.setState]⟩)
    · exact Or.inl (by simp [ProtocolManager.setState, Function.update_noteq hp])

theorem serviceLoops_keyStep (w : World) (s : ProtocolManager) (p : ProtocolType) :
    KeyStep p (s.states p) ((serviceLoops w s).states p) := by
  have h1 := touchState_keyStep s ProtocolType.MQTT p
  simp only [serviceLoops]
  split
  · have h2 : KeyStep p (s.states p) ((mqttLoop w (s.touchState ProtocolType.MQTT).2).states p) := by
      rw [mqttLoop_states]
      exact h1
    have h3 := touchState_keyStep (mqttLoop w (s.touchState ProtocolType.MQTT).2)
      ProtocolType.WEBSOCKET p
    split
    · exact keyStep_trans (keyStep_trans h2 h3) (wsLoop_keyStep w _ p)
    · exact keyStep_trans h2 h3
  · have h3 := touchState_keyStep (s.touchState ProtocolType.MQTT).2
      ProtocolType.WEBSOCKET p
    split
    · exact keyStep_trans (keyStep_trans h1 h3) (wsLoop_keyStep w _ p)
    · exact keyStep_trans h1 h3

theorem publish_states (w : World) (m : ProtocolMessage) (s t : ProtocolManager)
    (r : Bool) (h : publish w m s = Except.ok (r, t)) : t.states = s.states := by
  cases hst : s.states m.protocol with
  | none => simp [publish, isConnected, hst] at h
  | some st =>
    by_cases hc : st = ProtocolState.CONNECTED
    · subst hc
      rw [publish_of_connected w m s hst] at h
      have hq := publishSwitch_states w m s
      simp only [Except.ok.injEq] at h
      rw [h] at hq
      exact hq
    · rw [publish_of_not_connected w m s st hst hc] at h
      have hq := addToQueue_states m s
      simp only [Except.ok.injEq] at h
      rw [h] at hq
      exact hq

theorem processLoop_states (w : World) (fuel it : Nat) (s t : ProtocolManager)
    (h : processLoop w fuel it s = Except.ok t) : t.states = s.states := by
  induction fuel generalizing it s with
  | zero => simp [processLoop] at h
  | succ n ih =>
    rw [processLoop] at h
    split at h
    · simp only [Except.ok.injEq] at h
      rw [← h]
    · rename_i m hm
      split at h
      · simp at h
      · rename_i s1 hp
        rw [ih _ _ h]
        exact publish_states w m s s1 true hp
      · rename_i s1 hp
        rw [ih _ _ h]
        exact publish_states w m s s1 false hp

theorem update_keyStep (w : World) (fuel : Nat) (s t : ProtocolManager)
    (h : update w fuel s = Except.ok t) (p : ProtocolType) :
    KeyStep p (s.states p) (t.states p) := by
  simp only [update, processMessageQueue] at h
  split at h
  · simp only [Except.ok.injEq] at h
    rw [← h]
    exact serviceLoops_keyStep w s p
  · rw [processLoop_states w fuel 0 _ t h]
    exact serviceLoops_keyStep w s p

theorem saveConfig_states (w : World) (s : ProtocolManager) :
    (saveConfig w s).2.states = s.states := by
  simp only [saveConfig]
  split
  · rfl
  · split <;> rfl

theorem loadConfig_states (w : World) (s : ProtocolManager) :
    (loadConfig w s).2.states = s.states := by
  simp only [loadConfig]
  split
  · rw [saveConfig_states]
    rfl
  · split
    · rfl
    · split <;> rfl

theorem subscribe_states (w : World) (topic : String) (p : ProtocolType)
    (s : ProtocolManager) : (subscribe w topic p s).2.states = s.states := by
  cases p <;> rfl

theorem setConfig_states (w : World) (c : ProtocolConfig) (s : ProtocolManager) :
    (setConfig w c s).states = s.states := by
  simp only [setConfig, validateConfig, if_true, saveConfig_states]

/-- The entry of the state table that `connect(q)` assigns: its own, except
that `connect(HTTPS)` assigns the entry of `HTTP`. -/
def connectTarget : ProtocolType → ProtocolType
  | ProtocolType.HTTPS => ProtocolType.HTTP
  | q => q

theorem connect_states (w : World) (q : ProtocolType) (s : ProtocolManager) :
    ∃ v, (connect w q s).2.states = Function.update s.states (connectTarget q) (some v) ∧
      (v = ProtocolState.CONNECTED ∨
        (v = ProtocolState.ERROR ∧ (q = ProtocolType.MQTT ∨ q = ProtocolType.COAP))) := by
  cases q with
  | MQTT =>
    simp only [connect, connectMqtt]
    split
    · exact ⟨ProtocolState.CONNECTED, by
        simp [logProtocolEvent, ProtocolManager.emit, ProtocolManager.setState,
          connectTarget], by simp⟩
    · exact ⟨ProtocolState.ERROR, by
        simp [setError, logProtocolEvent, ProtocolManager.emit, ProtocolManager.setState,
          connectTarget], by simp⟩
  | COAP =>
    simp only [connect, connectCoap]
    split
    · exact ⟨ProtocolState.CONNECTED, by
        simp [ProtocolManager.emit, ProtocolManager.setState, connectTarget], by simp⟩
    · exact ⟨ProtocolState.ERROR, by
        simp [setError, logProtocolEvent, ProtocolManager.emit, ProtocolManager.setState,
          connectTarget], by simp⟩
  | HTTP =>
    exact ⟨ProtocolState.CONNECTED, by
      simp [connect, connectHttp, ProtocolManager.setState, connectTarget], Or.inl rfl⟩
  | HTTPS =>
    exact ⟨ProtocolState.CONNECTED, by
      simp [connect, connectHttp, ProtocolManager.setState, connectTarget], Or.inl rfl⟩
  | WEBSOCKET =>
    exact ⟨ProtocolState.CONNECTED, by
      simp [connect, connectWebSocket, ProtocolManager.setState, ProtocolManager.emit,
        connectTarget], Or.inl rfl⟩
  | CUSTOM =>
    exact ⟨ProtocolState.CONNECTED, by
      simp [connect, connectCustom, ProtocolManager.setState, connectTarget], Or.inl rfl⟩

theorem disconnect_states_of_ne (w : World) (q p : ProtocolType) (s : ProtocolManager)
    (h : p ≠ q) : KeyStep p (s.states p) ((disconnect w q s).states p) := by
  cases q <;>
    simp only [disconnect, ProtocolManager.setState, Function.update_noteq h] <;>
    first
      | exact keyStep_refl _ _
      | exact foldl_deliverWs_keyStep _ (s.emit Call.wsDisconnect) p

/-- How the entry of transport `p` may change across one operation `op`: as
inside the manager (`KeyStep`), or `op` is `connect(p)` and the entry is now
`CONNECTED` or, for the broker and CoAP, `ERROR`, or `op` is `connect(HTTPS)`
and `p` is `HTTP`, now `CONNECTED`, or `op` is `disconnect(p)` and the entry
is now `DISCONNECTED`. -/
def StepKey (op : Op) (p : ProtocolType) (a b : Option ProtocolState) : Prop :=
  KeyStep p a b ∨
  (op = Op.connect p ∧
    (b = some ProtocolState.CONNECTED ∨
      (b = some ProtocolState.ERROR ∧ (p = ProtocolType.MQTT ∨ p = ProtocolType.COAP)))) ∨
  (op = Op.connect ProtocolType.HTTPS ∧ p = ProtocolType.HTTP ∧
    b = some ProtocolState.CONNECTED) ∨
  (op = Op.disconnect p ∧ b = some ProtocolState.DISCONNECTED)

theorem step_stepKey (w : World) (op : Op) (s t : ProtocolManager)
    (h : step w op s = Except.ok t) (p : ProtocolType) :
    StepKey op p (s.states p) (t.states p) := by
  cases op with
  | update fuel => exact Or.inl (update_keyStep w fuel s t h p)
  | publish message =>
    simp only [step] at h
    split at h
    · rename_i r s1 hp
      simp only [Except.ok.injEq] at h
      rw [← h, publish_states w message s s1 r hp]
      exact Or.inl (keyStep_refl _ _)
    · simp at h
  | begin =>
    simp only [step, Except.ok.injEq] at h
    rw [← h, begin, loadConfig_states]
    exact Or.inl (keyStep_refl _ _)
  | connect q =>
    simp only [step, Except.ok.injEq] at h
    obtain ⟨v, hv, hcase⟩ := connect_states w q s
    rw [← h, hv]
    by_cases hp : p = connectTarget q
    · rw [hp, Function.update_same]
      rcases hcase with hc | ⟨hc, hq⟩
      · subst hc
        cases q <;> simp [StepKey, connectTarget]
      · subst hc
        rcases hq with hq | hq <;> subst hq <;> simp [StepKey, connectTarget]
    · rw [Function.update_noteq hp]
      exact Or.inl (keyStep_refl _ _)
  | disconnect q =>
    simp only [step, Except.ok.injEq] at h
    rw [← h]
    by_cases hp : p = q
    · subst hp
      exact Or.inr (Or.inr (Or.inr ⟨rfl, disconnect_states w p s⟩))
    · exact Or.inl (disconnect_states_of_ne w q p s hp)
  | subscribe topic protocol =>
    simp only [step, Except.ok.injEq] at h
    rw [← h, subscribe_states]
    exact Or.inl (keyStep_refl _ _)
  | setConfig newConfig =>
    simp only [step, Except.ok.injEq] at h
    rw [← h, setConfig_states]
    exact Or.inl (keyStep_refl _ _)
  | saveConfig =>
    simp only [step, Except.ok.injEq] at h
    rw [← h, saveConfig_states]
    exact Or.inl (keyStep_refl _ _)
  | loadConfig =>
    simp only [step, Except.ok.injEq] at h
    rw [← h, loadConfig_states]
    exact Or.inl (keyStep_refl _ _)
  | webSocketEvent type payload =>
    simp only [step, Except.ok.injEq] at h
    rw [← h]
    exact Or.inl (handleWebSocketEvent_keyStep type payload s p)
  | mqttMessage topic payload =>
    simp only [step, Except.ok.injEq] at h
    rw [← h]
    simp only [handleMqttMessage]
    split <;> exact Or.inl (keyStep_refl _ _)
  | coapResponse messageid payload =>
    simp only [step, Except.ok.injEq] at h
    rw [← h]
    simp only [handleCoapResponse]
    split <;> exact Or.inl (keyStep_refl _ _)
  | setMessageCallback nonNull =>
    simp only [step, Except.ok.injEq] at h
    rw [← h]
    exact Or.inl (keyStep_refl _ _)
  | setMqttCallback =>
    simp only [step, Except.ok.injEq] at h
    rw [← h]
    exact Or.inl (keyStep_refl _ _)
  | setWebSocketCallback =>
    simp only [step, Except.ok.injEq] at h
    rw [← h]
    exact Or.inl (keyStep_refl _ _)
  | setCoapCallback =>
    simp only [step, Except.ok.injEq] at h
    rw [← h]
    exact Or.inl (keyStep_refl _ _)

theorem stepKey_present {op : Op} {p : ProtocolType} {a b : Option ProtocolState}
    (h : StepKey op p a b) (ha : a ≠ none) : b ≠ none := by
  rcases h with (h | ⟨_, h | h⟩ | ⟨h, _⟩) | ⟨_, h | ⟨h, _⟩⟩ | ⟨_, _, h⟩ | ⟨_, h⟩
  · rw [h]; exact ha
  all_goals first
    | (rw [h]; exact Option.some_ne_none _)
    | exact absurd h ha

theorem stepKey_error_source {op : Op} {p : ProtocolType} {a b : Option ProtocolState}
    (h : StepKey op p a b) (hb : b = some ProtocolState.ERROR) :
    a = some ProtocolState.ERROR ∨ p = ProtocolType.MQTT ∨ p = ProtocolType.COAP := by
  rcases h with (h | ⟨_, h | h⟩ | ⟨_, h⟩) | ⟨_, h | ⟨_, h⟩⟩ | ⟨_, _, h⟩ | ⟨_, h⟩
  · exact Or.inl (by rw [← h]; exact hb)
  · rw [hb] at h; cases h
  · rw [hb] at h; cases h
  · rw [hb] at h; cases h
  · rw [hb] at h; cases h
  · exact Or.inr h
  · rw [hb] at h; cases h
  · rw [hb] at h; cases h

theorem reachable_states_present (s : ProtocolManager) (h : Reachable s)
    (p : ProtocolType) : s.states p ≠ none := by
  induction h with
  | init efuseMac => simp [ProtocolManager.new]
  | step w op s t _ hstep ih => exact stepKey_present (step_stepKey w op s t hstep p) ih

theorem reachable_error_only_mqtt_coap (s : ProtocolManager) (h : Reachable s)
    (p : ProtocolType) (hp : s.states p = some ProtocolState.ERROR) :
    p = ProtocolType.MQTT ∨ p = ProtocolType.COAP := by
  induction h with
  | init efuseMac => simp [ProtocolManager.new] at hp
  | step w op s t _ hstep ih =>
    rcases stepKey_error_source (step_stepKey w op s t hstep p) hp with h | h
    · exact ih h
    · exact h

theorem reachable_length_le (s : ProtocolManager) (h : Reachable s) :
    s.messageQueue.length ≤ MAX_QUEUE_SIZE := by
  induction h with
  | init efuseMac => simp [ProtocolManager.new]
  | step w op s t _ hstep ih => exact step_length_le w op s t hstep ih

theorem getState_eq_ok_iff (s : ProtocolManager) (p : ProtocolType) (st : ProtocolState) :
    getState s p = Except.ok st ↔ s.states p = some st := by
  unfold getState
  cases s.states p <;> simp

/-- C13: `getState(t)` never fails.  On a freshly constructed manager it
returns `DISCONNECTED` for each of the six transports, and in every reachable
state the state table has an entry for each of the six (one, the table being a
map), which is what `getState` returns. -/
theorem getState_never_fails (efuseMac : Nat) (s : ProtocolManager) (h : Reachable s)
    (t : ProtocolType) :
    getState (ProtocolManager.new efuseMac) t = Except.ok ProtocolState.DISCONNECTED ∧
    ∃ st, s.states t = some st ∧ getState s t = Except.ok st := by
  refine ⟨rfl, ?_⟩
  cases hst : s.states t with
  | none => exact absurd hst (reachable_states_present s h t)
  | some st => exact ⟨st, rfl, (getState_eq_ok_iff s t st).mpr hst⟩

/-- Witness of C13: the socket's state after a publish, a connect and an
`update` tick. -/
theorem getState_never_fails_witness :
    Reachable afterTick ∧
    ∃ st, afterTick.states ProtocolType.WEBSOCKET = some st ∧
      getState afterTick ProtocolType.WEBSOCKET = Except.ok st :=
  ⟨afterTick_reachable,
    (getState_never_fails 0 afterTick afterTick_reachable ProtocolType.WEBSOCKET).2⟩

/-! ## The error state -/

/-- A fresh manager after `connect(MQTT)` was refused by the broker. -/
def brokerFailed : ProtocolManager :=
  (connect World.quiet ProtocolType.MQTT (ProtocolManager.new 0)).2

theorem brokerFailed_reachable : Reachable brokerFailed :=
  Reachable.step World.quiet (Op.connect ProtocolType.MQTT) _ _ (Reachable.init 0) rfl

/-- C16 as stated fails: the broker is in `ERROR` after a refused connect, a
reachable state, and `disconnect(MQTT)`, which is not `connect(MQTT)`, leaves
it in `DISCONNECTED`. -/
theorem error_left_by_disconnect :
    Reachable brokerFailed ∧
    getState brokerFailed ProtocolType.MQTT = Except.ok ProtocolState.ERROR ∧
    Op.disconnect ProtocolType.MQTT ≠ Op.connect ProtocolType.MQTT ∧
    step World.quiet (Op.disconnect ProtocolType.MQTT) brokerFailed =
      Except.ok (disconnect World.quiet ProtocolType.MQTT brokerFailed) ∧
    getState (disconnect World.quiet ProtocolType.MQTT brokerFailed) ProtocolType.MQTT =
      Except.ok ProtocolState.DISCONNECTED :=
  ⟨brokerFailed_reachable, rfl, fun h => Op.noConfusion h, rfl, rfl⟩

/-- C16, amended: in a reachable state a transport `t` in `ERROR` is still in
`ERROR` after every operation that returns, other than `connect(t)` and
`disconnect(t)`: `update` ticks, `publish`, `subscribe`, `setConfig`,
`begin`, the callback setters, inbound events, and connects and disconnects
of the other transports. -/
theorem error_persists_except_connect_disconnect (w : World) (op : Op)
    (s t : ProtocolManager) (p : ProtocolType) (hr : Reachable s)
    (he : getState s p = Except.ok ProtocolState.ERROR)
    (hc : op ≠ Op.connect p) (hd : op ≠ Op.disconnect p)
    (h : step w op s = Except.ok t) :
    getState t p = Except.ok ProtocolState.ERROR := by
  rw [getState_eq_ok_iff] at he ⊢
  have hp := reachable_error_only_mqtt_coap s hr p he
  rcases step_stepKey w op s t h p with
    (hk | ⟨hws, _⟩ | ⟨hn, _⟩) | ⟨hop, _⟩ | ⟨_, hhttp, _⟩ | ⟨hop, _⟩
  · rw [hk]; exact he
  · rcases hp with hp | hp <;> rw [hp] at hws <;> cases hws
  · rw [he] at hn; cases hn
  · exact absurd hop hc
  · rcases hp with hp | hp <;> rw [hp] at hhttp <;> cases hhttp
  · exact absurd hop hd

/-- Witness of C16, amended: the broker in `ERROR` across an `update` tick. -/
theorem error_persists_except_connect_disconnect_witness :
    getState brokerFailed ProtocolType.MQTT = Except.ok ProtocolState.ERROR ∧
    step World.kind (Op.update 1) brokerFailed = Except.ok brokerFailed ∧
    getState brokerFailed ProtocolType.MQTT = Except.ok ProtocolState.ERROR :=
  ⟨rfl, rfl,
    error_persists_except_connect_disconnect World.kind (Op.update 1) brokerFailed
      brokerFailed ProtocolType.MQTT brokerFailed_reachable rfl
      (fun h => Op.noConfusion h) (fun h => Op.noConfusion h) rfl⟩

/-- C17, evaluated on the code: `HTTP` and `HTTPS` are distinct transports,
and on a freshly constructed manager `connect(HTTPS)` changes `getState(HTTP)`
from `DISCONNECTED` to `CONNECTED` (and leaves `getState(HTTPS)` as it was). -/
theorem connect_https_changes_http_state (w : World) (efuseMac : Nat) :
    ProtocolType.HTTP ≠ ProtocolType.HTTPS ∧
    getState (ProtocolManager.new efuseMac) ProtocolType.HTTP =
      Except.ok ProtocolState.DISCONNECTED ∧
    getState (connect w ProtocolType.HTTPS (ProtocolManager.new efuseMac)).2
      ProtocolType.HTTP = Except.ok ProtocolState.CONNECTED ∧
    getState (connect w ProtocolType.HTTPS (ProtocolManager.new efuseMac)).2
      ProtocolType.HTTPS =
      getState (ProtocolManager.new efuseMac) ProtocolType.HTTPS := by
  refine ⟨by decide, rfl, ?_, ?_⟩ <;>
    simp [connect, connectHttp, getState, ProtocolManager.setState, ProtocolManager.new]

/-! ## The custom transport -/

theorem filledManager_reachable (n : Nat) : Reachable (filledManager n) := by
  induction n with
  | zero => exact Reachable.init 0
  | succ k ih =>
    refine Reachable.step World.quiet
      (Op.publish (sampleMessage ProtocolType.COAP "x")) _ _ ih ?_
    have hnc := (isConnected_eq_false_iff (filledManager k)
      (sampleMessage ProtocolType.COAP "x").protocol).mp (filledManager_not_connected k _)
    obtain ⟨st, hst, hne⟩ := hnc
    simp only [step, publish_of_not_connected World.quiet _ _ st hst hne]
    rfl

/-- C18 as stated fails: the manager after 50 queued CoAP messages is
reachable, the custom transport is not connected in it, and `publish` of a
custom message returns false there. -/
theorem custom_publish_rejected_when_full :
    Reachable (filledManager 50) ∧
    (sampleMessage ProtocolType.CUSTOM "y").protocol = ProtocolType.CUSTOM ∧
    (filledManager 50).messageQueue.length = 50 ∧
    publish World.kind (sampleMessage ProtocolType.CUSTOM "y") (filledManager 50) =
      Except.ok (false, filledManager 50) := by
  have hlen := filledManager_length 50 (Nat.le_refl 50)
  refine ⟨filledManager_reachable 50, rfl, hlen, ?_⟩
  obtain ⟨st, hst, hne⟩ := (isConnected_eq_false_iff (filledManager 50)
    (sampleMessage ProtocolType.CUSTOM "y").protocol).mp (filledManager_not_connected 50 _)
  rw [publish_of_not_connected World.kind _ _ st hst hne]
  simp [addToQueue, MAX_QUEUE_SIZE, hlen]

/-- C18, amended: in every reachable state `connect(CUSTOM)` returns true, and
`publish` of a custom message returns, with true unless the custom transport
is not connected and the retry queue holds 50 entries; in that one case it
returns false (the result of the refused enqueue). -/
theorem custom_connect_and_publish (w : World) (s : ProtocolManager) (m : ProtocolMessage)
    (hr : Reachable s) (hm : m.protocol = ProtocolType.CUSTOM) :
    (connect w ProtocolType.CUSTOM s).1 = true ∧
    ∃ r t, publish w m s = Except.ok (r, t) ∧
      (r = false ↔
        (isConnected s ProtocolType.CUSTOM = Except.ok false ∧
          s.messageQueue.length = 50)) := by
  refine ⟨rfl, ?_⟩
  have hlen := reachable_length_le s hr
  unfold MAX_QUEUE_SIZE at hlen
  cases hst : s.states ProtocolType.CUSTOM with
  | none => exact absurd hst (reachable_states_present s hr _)
  | some st =>
    by_cases hc : st = ProtocolState.CONNECTED
    · subst hc
      refine ⟨true, s, ?_, ?_⟩
      · rw [publish_of_connected w m s (by rw [hm]; exact hst)]
        simp [publishSwitch, hm, publishCustom]
      · simp [isConnected, hst]
    · have hpub := publish_of_not_connected w m s st (by rw [hm]; exact hst) hc
      by_cases hfull : s.messageQueue.length = 50
      · refine ⟨false, s, ?_, ?_⟩
        · rw [hpub]
          simp [addToQueue, MAX_QUEUE_SIZE, hfull]
        · simp [isConnected, hst, hc, hfull]
      · refine ⟨true, { s with messageQueue := s.messageQueue ++ [m] }, ?_, ?_⟩
        · rw [hpub]
          have hnot : ¬ MAX_QUEUE_SIZE ≤ s.messageQueue.length := by
            unfold MAX_QUEUE_SIZE
            omega
          simp [addToQueue, hnot]
        · simp [hfull]

/-- Witness of C18, amended: a custom message on the manager whose queue
holds 50 entries. -/
theorem custom_connect_and_publish_witness :
    Reachable (filledManager 50) ∧
    (sampleMessage ProtocolType.CUSTOM "y").protocol = ProtocolType.CUSTOM ∧
    (connect World.kind ProtocolType.CUSTOM (filledManager 50)).1 = true ∧
    ∃ r t, publish World.kind (sampleMessage ProtocolType.CUSTOM "y") (filledManager 50) =
        Except.ok (r, t) ∧
      (r = false ↔
        (isConnected (filledManager 50) ProtocolType.CUSTOM = Except.ok false ∧
          (filledManager 50).messageQueue.length = 50)) :=
  ⟨filledManager_reachable 50, rfl,
    custom_connect_and_publish World.kind (filledManager 50)
      (sampleMessage ProtocolType.CUSTOM "y") (filledManager_reachable 50) rfl⟩

/-! ## The dispatcher -/

/-- C19: each inbound event adds to the trace at most one call of the
registered callback and none when no callback is registered; the message
handed over carries the topic and payload of the event, is tagged `MQTT` by
`handleMqttMessage`, `WEBSOCKET` by `handleWebSocketEvent` (which calls back
for a text event only) and `COAP` by `handleCoapResponse`, and its
`isResponse` is true for the CoAP response and false for the other two. -/
theorem dispatcher_tags_messages (s : ProtocolManager) (topic payload : String)
    (type : WStype_t) (messageid : Nat) :
    (∃ m, m.protocol = ProtocolType.MQTT ∧ m.isResponse = false ∧
      m.topic = topic ∧ m.payload = payload ∧
      (handleMqttMessage topic payload s).trace =
        s.trace ++ if s.messageCallback = true then [Call.messageCallback m] else []) ∧
    (∃ m, m.protocol = ProtocolType.WEBSOCKET ∧ m.isResponse = false ∧
      m.topic = "websocket" ∧ m.payload = payload ∧
      (handleWebSocketEvent type payload s).trace =
        s.trace ++
          if type = WStype_t.WStype_TEXT ∧ s.messageCallback = true then
            [Call.messageCallback m]
          else []) ∧
    (∃ m, m.protocol = ProtocolType.COAP ∧ m.isResponse = true ∧
      m.topic = toString messageid ∧ m.payload = payload ∧
      (handleCoapResponse messageid payload s).trace =
        s.trace ++ if s.messageCallback = true then [Call.messageCallback m] else []) := by
  refine ⟨⟨{ topic := topic, payload := payload, protocol := ProtocolType.MQTT,
              retain := false, qos := 0, isResponse := false }, rfl, rfl, rfl, rfl, ?_⟩,
    ⟨{ topic := "websocket", payload := payload, protocol := ProtocolType.WEBSOCKET,
       retain := false, qos := 0, isResponse := false }, rfl, rfl, rfl, rfl, ?_⟩,
    ⟨{ topic := toString messageid, payload := payload, protocol := ProtocolType.COAP,
       retain := false, qos := 0, isResponse := true }, rfl, rfl, rfl, rfl, ?_⟩⟩
  · simp only [handleMqttMessage]
    split <;> simp [ProtocolManager.emit]
  · cases type <;> simp only [handleWebSocketEvent]
    case WStype_TEXT => split <;> simp [ProtocolManager.emit, *]
    all_goals simp [ProtocolManager.setState]
  · simp only [handleCoapResponse]
    split <;> simp [ProtocolManager.emit]

/-! ## The order of work in one tick -/

/-- A call that hands a message to a transport: the four calls `publish` can
make. -/
def Call.isDelivery : Call → Bool
  | Call.mqttPublish _ _ _ => true
  | Call.httpPost _ _ _ => true
  | Call.wsSendTXT _ => true
  | Call.coapPut _ _ _ _ => true
  | _ => false

/-- A call of a callback: the registered message callback, or a handler given
to `setMqttCallback` or `setWebSocketCallback`. -/
def Call.isCallback : Call → Bool
  | Call.messageCallback _ => true
  | Call.userMqttCallback _ => true
  | Call.userWsCallback _ => true
  | _ => false

/-- The trace of `t` is the trace of `s` followed by calls that satisfy `P`. -/
def TraceAdds (P : Call → Bool) (s t : ProtocolManager) : Prop :=
  ∃ a, t.trace = s.trace ++ a ∧ ∀ x ∈ a, P x = true

theorem traceAdds_refl (P : Call → Bool) (s : ProtocolManager) : TraceAdds P s s :=
  ⟨[], by simp, fun _ h => absurd h (List.not_mem_nil _)⟩

theorem traceAdds_trans {P : Call → Bool} {s t u : ProtocolManager}
    (h1 : TraceAdds P s t) (h2 : TraceAdds P t u) : TraceAdds P s u := by
  obtain ⟨a, ha, hPa⟩ := h1
  obtain ⟨b, hb, hPb⟩ := h2
  refine ⟨a ++ b, by rw [hb, ha, List.append_assoc], ?_⟩
  intro x hx
  rcases List.mem_append.mp hx with hx | hx
  · exact hPa x hx
  · exact hPb x hx

theorem traceAdds_emit (P : Call → Bool) (s : ProtocolManager) (c : Call)
    (hc : P c = true) : TraceAdds P s (s.emit c) :=
  ⟨[c], rfl, fun x hx => by rw [List.mem_singleton.mp hx]; exact hc⟩

theorem deliverMqtt_traceAdds (s : ProtocolManager) (e : MqttEvent) :
    TraceAdds Call.isCallback s (deliverMqtt s e) := by
  unfold deliverMqtt
  cases s.mqttHandler with
  | unset => exact traceAdds_refl _ _
  | user => exact traceAdds_emit _ _ _ rfl
  | manager =>
    simp only [handleMqttMessage]
    split
    · exact traceAdds_emit _ _ _ rfl
    · exact traceAdds_refl _ _

theorem handleWebSocketEvent_traceAdds (type : WStype_t) (payload : String)
    (s : ProtocolManager) :
    TraceAdds Call.isCallback s (handleWebSocketEvent type payload s) := by
  cases type <;> simp only [handleWebSocketEvent]
  case WStype_TEXT =>
    split
    · exact traceAdds_emit _ _ _ rfl
    · exact traceAdds_refl _ _
  all_goals exact ⟨[], by simp [ProtocolManager.setState],
    fun _ h => absurd h (List.not_mem_nil _)⟩

theorem deliverWs_traceAdds (s : ProtocolManager) (e : WsEvent) :
    TraceAdds Call.isCallback s (deliverWs s e) := by
  unfold deliverWs
  cases s.wsHandler with
  | unset => exact traceAdds_refl _ _
  | user => exact traceAdds_emit _ _ _ rfl
  | manager => exact handleWebSocketEvent_traceAdds _ _ s

theorem foldl_deliverMqtt_traceAdds (evs : List MqttEvent) (s : ProtocolManager) :
    TraceAdds Call.isCallback s (evs.foldl deliverMqtt s) := by
  induction evs generalizing s with
  | nil => exact traceAdds_refl _ _
  | cons e rest ih =>
    rw [List.foldl_cons]
    exact traceAdds_trans (deliverMqtt_traceAdds s e) (ih _)

theorem foldl_deliverWs_traceAdds (evs : List WsEvent) (s : ProtocolManager) :
    TraceAdds Call.isCallback s (evs.foldl deliverWs s) := by
  induction evs generalizing s with
  | nil => exact traceAdds_refl _ _
  | cons e rest ih =>
    rw [List.foldl_cons]
    exact traceAdds_trans (deliverWs_traceAdds s e) (ih _)

theorem mqttLoop_trace (w : World) (s : ProtocolManager) :
    ∃ a, (mqttLoop w s).trace = s.trace ++ Call.mqttLoop :: a ∧
      ∀ x ∈ a, Call.isCallback x = true := by
  obtain ⟨a, ha, hP⟩ := foldl_deliverMqtt_traceAdds (w.mqttLoop s.now) (s.emit Call.mqttLoop)
  exact ⟨a, by rw [mqttLoop, ha]; simp [ProtocolManager.emit], hP⟩

theorem wsLoop_trace (w : World) (s : ProtocolManager) :
    ∃ b, (wsLoop w s).trace = s.trace ++ Call.wsLoop :: b ∧
      ∀ x ∈ b, Call.isCallback x = true := by
  obtain ⟨b, hb, hP⟩ := foldl_deliverWs_traceAdds (w.wsLoop s.now) (s.emit Call.wsLoop)
  exact ⟨b, by rw [wsLoop, hb]; simp [ProtocolManager.emit], hP⟩

theorem touchState_fst (s : ProtocolManager) (q : ProtocolType) :
    (s.touchState q).1 = ProtocolState.CONNECTED ↔
      s.states q = some ProtocolState.CONNECTED := by
  unfold ProtocolManager.touchState
  cases s.states q <;> simp

theorem touchState_trace (s : ProtocolManager) (q : ProtocolType) :
    (s.touchState q).2.trace = s.trace := by
  unfold ProtocolManager.touchState
  cases s.states q <;> rfl

theorem touchState_states_of_ne (s : ProtocolManager) (q p : ProtocolType) (h : p ≠ q) :
    (s.touchState q).2.states p = s.states p := by
  unfold ProtocolManager.touchState
  cases s.states q with
  | some st => rfl
  | none => simp [ProtocolManager.setState, Function.update_noteq h]

theorem publish_traceAdds (w : World) (m : ProtocolMessage) (s t : ProtocolManager)
    (r : Bool) (h : publish w m s = Except.ok (r, t)) :
    TraceAdds Call.isDelivery s t := by
  cases hst : s.states m.protocol with
  | none => simp [publish, isConnected, hst] at h
  | some st =>
    by_cases hc : st = ProtocolState.CONNECTED
    · subst hc
      rw [publish_of_connected w m s hst] at h
      simp only [Except.ok.injEq] at h
      have ht : t = (publishSwitch w m s).2 := by rw [h]
      rw [ht]
      unfold publishSwitch
      cases m.protocol <;>
        first
          | exact traceAdds_refl _ _
          | exact traceAdds_emit _ _ _ rfl
    · rw [publish_of_not_connected w m s st hst hc] at h
      simp only [Except.ok.injEq] at h
      have ht : t = (addToQueue m s).2 := by rw [h]
      rw [ht]
      unfold addToQueue
      split
      · exact traceAdds_refl _ _
      · exact ⟨[], by simp, fun _ hx => absurd hx (List.not_mem_nil _)⟩

theorem processLoop_traceAdds (w : World) (fuel it : Nat) (s t : ProtocolManager)
    (h : processLoop w fuel it s = Except.ok t) : TraceAdds Call.isDelivery s t := by
  induction fuel generalizing it s with
  | zero => simp [processLoop] at h
  | succ n ih =>
    rw [processLoop] at h
    split at h
    · simp only [Except.ok.injEq] at h
      rw [← h]
      exact traceAdds_refl _ _
    · rename_i m hm
      split at h
      · simp at h
      · rename_i s1 hp
        obtain ⟨c, hc, hP⟩ := ih _ _ h
        exact traceAdds_trans (publish_traceAdds w m s s1 true hp) ⟨c, hc, hP⟩
      · rename_i s1 hp
        exact traceAdds_trans (publish_traceAdds w m s s1 false hp) (ih _ _ h)

theorem serviceLoops_trace (w : World) (s : ProtocolManager) :
    ∃ a b : List Call,
      (∀ x ∈ a, Call.isCallback x = true) ∧ (∀ x ∈ b, Call.isCallback x = true) ∧
      (serviceLoops w s).trace =
        s.trace ++
          (if s.states ProtocolType.MQTT = some ProtocolState.CONNECTED then
            Call.mqttLoop :: a else []) ++
          (if s.states ProtocolType.WEBSOCKET = some ProtocolState.CONNECTED then
            Call.wsLoop :: b else []) := by
  have hne : ProtocolType.WEBSOCKET ≠ ProtocolType.MQTT := by decide
  have hws1 : (s.touchState ProtocolType.MQTT).2.states ProtocolType.WEBSOCKET =
      s.states ProtocolType.WEBSOCKET := touchState_states_of_ne s _ _ hne
  simp only [serviceLoops]
  split
  · rename_i hm
    have hm' := (touchState_fst s ProtocolType.MQTT).mp hm
    obtain ⟨a, ha, hPa⟩ := mqttLoop_trace w (s.touchState ProtocolType.MQTT).2
    rw [touchState_trace] at ha
    have hws2 : (mqttLoop w (s.touchState ProtocolType.MQTT).2).states
        ProtocolType.WEBSOCKET = s.states ProtocolType.WEBSOCKET := by
      rw [mqttLoop_states, hws1]
    split
    · rename_i hw
      have hw' := (touchState_fst _ ProtocolType.WEBSOCKET).mp hw
      rw [hws2] at hw'
      obtain ⟨b, hb, hPb⟩ := wsLoop_trace w
        ((mqttLoop w (s.touchState ProtocolType.MQTT).2).touchState ProtocolType.WEBSOCKET).2
      rw [touchState_trace, ha] at hb
      exact ⟨a, b, hPa, hPb, by rw [hb]; simp [hm', hw']⟩
    · rename_i hw
      have hw' : ¬ s.states ProtocolType.WEBSOCKET = some ProtocolState.CONNECTED := by
        rw [← hws2]
        exact fun hh => hw ((touchState_fst _ ProtocolType.WEBSOCKET).mpr hh)
      exact ⟨a, [], hPa, fun _ hx => absurd hx (List.not_mem_nil _), by
        rw [touchState_trace, ha]; simp [hm', hw']⟩
  · rename_i hm
    have hm' : ¬ s.states ProtocolType.MQTT = some ProtocolState.CONNECTED :=
      fun hh => hm ((touchState_fst s ProtocolType.MQTT).mpr hh)
    split
    · rename_i hw
      have hw' := (touchState_fst _ ProtocolType.WEBSOCKET).mp hw
      rw [hws1] at hw'
      obtain ⟨b, hb, hPb⟩ := wsLoop_trace w
        ((s.touchState ProtocolType.MQTT).2.touchState ProtocolType.WEBSOCKET).2
      rw [touchState_trace, touchState_trace] at hb
      exact ⟨[], b, fun _ hx => absurd hx (List.not_mem_nil _), hPb, by
        rw [hb]; simp [hm', hw']⟩
    · rename_i hw
      have hw' : ¬ s.states ProtocolType.WEBSOCKET = some ProtocolState.CONNECTED := by
        rw [← hws1]
        exact fun hh => hw ((touchState_fst _ ProtocolType.WEBSOCKET).mpr hh)
      exact ⟨[], [], fun _ hx => absurd hx (List.not_mem_nil _),
        fun _ hx => absurd hx (List.not_mem_nil _), by
        rw [touchState_trace, touchState_trace]; simp [hm', hw']⟩

/-- C20: one `update` tick works in a fixed order.  Its calls are, in order:
`mqttClient.loop()` (with the callbacks that loop makes) if and only if the
broker is connected; then `webSocket.loop()` (with its callbacks) if and only
if the socket is connected; then, on every tick and after both, one run of
`processMessageQueue`, whose calls are transport deliveries only. -/
theorem update_fixed_order (w : World) (s : ProtocolManager) :
    ∃ a b : List Call,
      (∀ x ∈ a, Call.isCallback x = true) ∧ (∀ x ∈ b, Call.isCallback x = true) ∧
      (serviceLoops w s).trace =
        s.trace ++
          (if s.states ProtocolType.MQTT = some ProtocolState.CONNECTED then
            Call.mqttLoop :: a else []) ++
          (if s.states ProtocolType.WEBSOCKET = some ProtocolState.CONNECTED then
            Call.wsLoop :: b else []) ∧
      (∀ fuel, update w fuel s = processMessageQueue w fuel (serviceLoops w s)) ∧
      (∀ fuel t, update w fuel s = Except.ok t →
        ∃ c, (∀ x ∈ c, Call.isDelivery x = true) ∧
          t.trace = (serviceLoops w s).trace ++ c) := by
  obtain ⟨a, b, hPa, hPb, htrace⟩ := serviceLoops_trace w s
  refine ⟨a, b, hPa, hPb, htrace, fun _ => rfl, ?_⟩
  intro fuel t h
  simp only [update, processMessageQueue] at h
  split at h
  · simp only [Except.ok.injEq] at h
    exact ⟨[], fun _ hx => absurd hx (List.not_mem_nil _), by rw [← h]; simp⟩
  · obtain ⟨c, hc, hPc⟩ := processLoop_traceAdds w fuel 0 _ t h
    exact ⟨c, hPc, hc⟩

/-! ## Default configuration -/

/-- C21: on a freshly constructed manager `getConfig()` reports broker port
1883, HTTP(S) port 80, socket port 80, CoAP port 5683, and TLS off for HTTP
(`useHttps` false) and for the socket (`wsSecure` false). -/
theorem getConfig_defaults (efuseMac : Nat) :
    (getConfig (ProtocolManager.new efuseMac)).mqttPort = 1883 ∧
    (getConfig (ProtocolManager.new efuseMac)).httpPort = 80 ∧
    (getConfig (ProtocolManager.new efuseMac)).wsPort = 80 ∧
    (getConfig (ProtocolManager.new efuseMac)).coapPort = 5683 ∧
    (getConfig (ProtocolManager.new efuseMac)).useHttps = false ∧
    (getConfig (ProtocolManager.new efuseMac)).wsSecure = false :=
  ⟨rfl, rfl, rfl, rfl, rfl, rfl⟩

/-! ## Last errors are never cleared -/

theorem addToQueue_lastErrors (m : ProtocolMessage) (s : ProtocolManager) :
    (addToQueue m s).2.lastErrors = s.lastErrors := by
  unfold addToQueue
  split <;> rfl

theorem publish_lastErrors (w : World) (m : ProtocolMessage) (s t : ProtocolManager)
    (r : Bool) (h : publish w m s = Except.ok (r, t)) : t.lastErrors = s.lastErrors := by
  cases hst : s.states m.protocol with
  | none => simp [publish, isConnected, hst] at h
  | some st =>
    by_cases hc : st = ProtocolState.CONNECTED
    · subst hc
      rw [publish_of_connected w m s hst] at h
      have hq := publishSwitch_lastErrors w m s
      simp only [Except.ok.injEq] at h
      rw [h] at hq
      exact hq
    · rw [publish_of_not_connected w m s st hst hc] at h
      have hq := addToQueue_lastErrors m s
      simp only [Except.ok.injEq] at h
      rw [h] at hq
      exact hq

theorem processLoop_lastErrors (w : World) (fuel it : Nat) (s t : ProtocolManager)
    (h : processLoop w fuel it s = Except.ok t) : t.lastErrors = s.lastErrors := by
  induction fuel generalizing it s with
  | zero => simp [processLoop] at h
  | succ n ih =>
    rw [processLoop] at h
    split at h
    · simp only [Except.ok.injEq] at h
      rw [← h]
    · rename_i m hm
      split at h
      · simp at h
      · rename_i s1 hp
        rw [ih _ _ h]
        exact publish_lastErrors w m s s1 true hp
      · rename_i s1 hp
        rw [ih _ _ h]
        exact publish_lastErrors w m s s1 false hp

theorem deliverMqtt_lastErrors (s : ProtocolManager) (e : MqttEvent) :
    (deliverMqtt s e).lastErrors = s.lastErrors := by
  unfold deliverMqtt
  cases s.mqttHandler with
  | unset => rfl
  | user => rfl
  | manager =>
      simp only [handleMqttMessage]
      split <;> rfl

theorem foldl_deliverMqtt_lastErrors (evs : List MqttEvent) (s : ProtocolManager) :
    (evs.foldl deliverMqtt s).lastErrors = s.lastErrors := by
  induction evs generalizing s with
  | nil => rfl
  | cons e rest ih => rw [List.foldl_cons, ih, deliverMqtt_lastErrors]

theorem touchState_lastErrors (s : ProtocolManager) (q : ProtocolType) :
    (s.touchState q).2.lastErrors = s.lastErrors := by
  unfold ProtocolManager.touchState
  cases s.states q <;> rfl

theorem serviceLoops_lastErrors (w : World) (s : ProtocolManager) :
    (serviceLoops w s).lastErrors = s.lastErrors := by
  have hm : ∀ u : ProtocolManager, (mqttLoop w u).lastErrors = u.lastErrors := by
    intro u
    simp [mqttLoop, foldl_deliverMqtt_lastErrors, ProtocolManager.emit]
  have hw : ∀ u : ProtocolManager, (wsLoop w u).lastErrors = u.lastErrors := by
    intro u
    simp [wsLoop, foldl_deliverWs_lastErrors, ProtocolManager.emit]
  simp only [serviceLoops]
  split <;> split <;> simp [hm, hw, touchState_lastErrors]

theorem handleWebSocketEvent_lastErrors (type : WStype_t) (payload : String)
    (s : ProtocolManager) :
    (handleWebSocketEvent type payload s).lastErrors = s.lastErrors := by
  simp only [handleWebSocketEvent]
  cases type <;> simp only [] <;> first | rfl | (split <;> rfl)

theorem subscribe_lastErrors (w : World) (topic : String) (p : ProtocolType)
    (s : ProtocolManager) : (subscribe w topic p s).2.lastErrors = s.lastErrors := by
  cases p <;> rfl

/-- The text `connect(p)` records when it fails, for the two transports whose
connect can fail. -/
def connectFailureText : ProtocolType → String
  | ProtocolType.MQTT => "Failed to connect to MQTT broker"
  | ProtocolType.COAP => "Failed to start CoAP server"
  | _ => ""

theorem connect_lastErrors (w : World) (q : ProtocolType) (s : ProtocolManager)
    (p : ProtocolType) :
    (connect w q s).2.lastErrors p = s.lastErrors p ∨
      (p = q ∧ (q = ProtocolType.MQTT ∨ q = ProtocolType.COAP) ∧
        (connect w q s).2.lastErrors p = some (connectFailureText q)) := by
  cases q with
  | MQTT =>
    simp only [connect, connectMqtt]
    split
    · exact Or.inl rfl
    · by_cases hp : p = ProtocolType.MQTT
      · subst hp
        exact Or.inr ⟨rfl, by simp, by
          simp [setError, logProtocolEvent, ProtocolManager.emit, ProtocolManager.setState,
            connectFailureText]⟩
      · exact Or.inl (by
          simp [setError, logProtocolEvent, ProtocolManager.emit, ProtocolManager.setState,
            Function.update_noteq hp])
  | COAP =>
    simp only [connect, connectCoap]
    split
    · exact Or.inl rfl
    · by_cases hp : p = ProtocolType.COAP
      · subst hp
        exact Or.inr ⟨rfl, by simp, by
          simp [setError, logProtocolEvent, ProtocolManager.emit, ProtocolManager.setState,
            connectFailureText]⟩
      · exact Or.inl (by
          simp [setError, logProtocolEvent, ProtocolManager.emit, ProtocolManager.setState,
            Function.update_noteq hp])
  | HTTP => exact Or.inl rfl
  | HTTPS => exact Or.inl rfl
  | WEBSOCKET => exact Or.inl rfl
  | CUSTOM => exact Or.inl rfl

theorem step_lastErrors (w : World) (op : Op) (s t : ProtocolManager)
    (h : step w op s = Except.ok t) (p : ProtocolType) :
    t.lastErrors p = s.lastErrors p ∨
      (op = Op.connect p ∧ (p = ProtocolType.MQTT ∨ p = ProtocolType.COAP) ∧
        t.lastErrors p = some (connectFailureText p)) := by
  cases op with
  | update fuel =>
    left
    simp only [step, update, processMessageQueue] at h
    split at h
    · simp only [Except.ok.injEq] at h
      rw [← h, serviceLoops_lastErrors]
    · rw [processLoop_lastErrors w fuel 0 _ t h, serviceLoops_lastErrors]
  | publish message =>
    left
    simp only [step] at h
    split at h
    · rename_i r s1 hp
      simp only [Except.ok.injEq] at h
      rw [← h, publish_lastErrors w message s s1 r hp]
    · simp at h
  | begin =>
    simp only [step, Except.ok.injEq] at h
    rw [← h, begin, loadConfig_lastErrors]
    exact Or.inl rfl
  | connect q =>
    simp only [step, Except.ok.injEq] at h
    rw [← h]
    rcases connect_lastErrors w q s p with hc | ⟨hpq, hq, hc⟩
    · exact Or.inl hc
    · subst hpq
      exact Or.inr ⟨rfl, hq, hc⟩
  | disconnect q =>
    simp only [step, Except.ok.injEq] at h
    rw [← h, disconnect_lastErrors]
    exact Or.inl rfl
  | subscribe topic protocol =>
    simp only [step, Except.ok.injEq] at h
    rw [← h, subscribe_lastErrors]
    exact Or.inl rfl
  | setConfig newConfig =>
    simp only [step, Except.ok.injEq] at h
    rw [← h]
    left
    simp only [setConfig, validateConfig, if_true, saveConfig_lastErrors]
  | saveConfig =>
    simp only [step, Except.ok.injEq] at h
    rw [← h, saveConfig_lastErrors]
    exact Or.inl rfl
  | loadConfig =>
    simp only [step, Except.ok.injEq] at h
    rw [← h, loadConfig_lastErrors]
    exact Or.inl rfl
  | webSocketEvent type payload =>
    simp only [step, Except.ok.injEq] at h
    rw [← h, handleWebSocketEvent_lastErrors]
    exact Or.inl rfl
  | mqttMessage topic payload =>
    simp only [step, Except.ok.injEq] at h
    rw [← h]
    simp only [handleMqttMessage]
    split <;> exact Or.inl rfl
  | coapResponse messageid payload =>
    simp only [step, Except.ok.injEq] at h
    rw [← h]
    simp only [handleCoapResponse]
    split <;> exact Or.inl rfl
  | setMessageCallback nonNull =>
    simp only [step, Except.ok.injEq] at h
    rw [← h]
    exact Or.inl rfl
  | setMqttCallback =>
    simp only [step, Except.ok.injEq] at h
    rw [← h]
    exact Or.inl rfl
  | setWebSocketCallback =>
    simp only [step, Except.ok.injEq] at h
    rw [← h]
    exact Or.inl rfl
  | setCoapCallback =>
    simp only [step, Except.ok.injEq] at h
    rw [← h]
    exact Or.inl rfl

theorem connectMqtt_of_false (w : World) (s : ProtocolManager)
    (h : (connect w ProtocolType.MQTT s).1 = false) :
    (connect w ProtocolType.MQTT s).2.lastErrors ProtocolType.MQTT =
      some "Failed to connect to MQTT broker" := by
  simp only [connect, connectMqtt] at h ⊢
  split at h
  · simp at h
  · rename_i hc
    rw [if_neg hc]
    simp [setError, logProtocolEvent, ProtocolManager.emit, ProtocolManager.setState]

theorem connectMqtt_of_true (w : World) (s : ProtocolManager)
    (h : (connect w ProtocolType.MQTT s).1 = true) :
    (connect w ProtocolType.MQTT s).2.states ProtocolType.MQTT =
      some ProtocolState.CONNECTED ∧
    (connect w ProtocolType.MQTT s).2.lastErrors = s.lastErrors := by
  simp only [connect, connectMqtt] at h ⊢
  split at h
  · rename_i hc
    rw [if_pos hc]
    simp [logProtocolEvent, ProtocolManager.emit, ProtocolManager.setState]
  · simp at h

/-- C25: a successful connect does not clear the last error.  When
`connect(MQTT)` fails and the next `connect(MQTT)` succeeds, `getState(MQTT)`
is `CONNECTED` and `getLastError(MQTT)` still returns the text of the failure.
And no operation clears a recorded error: a transport whose recorded last
error is a non-empty text has a non-empty last error after every operation
that returns. -/
theorem successful_connect_keeps_last_error (w1 w2 : World) (s0 : ProtocolManager)
    (hfail : (connect w1 ProtocolType.MQTT s0).1 = false)
    (hok : (connect w2 ProtocolType.MQTT (connect w1 ProtocolType.MQTT s0).2).1 = true) :
    getState (connect w2 ProtocolType.MQTT (connect w1 ProtocolType.MQTT s0).2).2
      ProtocolType.MQTT = Except.ok ProtocolState.CONNECTED ∧
    getLastError (connect w2 ProtocolType.MQTT (connect w1 ProtocolType.MQTT s0).2).2
      ProtocolType.MQTT = Except.ok "Failed to connect to MQTT broker" ∧
    ∀ (w : World) (op : Op) (s t : ProtocolManager) (p : ProtocolType) (e : String),
      s.lastErrors p = some e → e ≠ "" → step w op s = Except.ok t →
        ∃ e', getLastError t p = Except.ok e' ∧ e' ≠ "" := by
  obtain ⟨hst, hle⟩ := connectMqtt_of_true w2 _ hok
  refine ⟨(getState_eq_ok_iff _ _ _).mpr hst, ?_, ?_⟩
  · simp only [getLastError, hle, connectMqtt_of_false w1 s0 hfail]
  · intro w op s t p e hs he h
    rcases step_lastErrors w op s t h p with hsame | ⟨_, hp, hnew⟩
    · exact ⟨e, by simp only [getLastError, hsame, hs], he⟩
    · refine ⟨connectFailureText p, by simp only [getLastError, hnew], ?_⟩
      rcases hp with hp | hp <;> rw [hp] <;> decide

/-- Witness of C25: a refused broker connect followed by an accepted one on a
fresh manager. -/
theorem successful_connect_keeps_last_error_witness :
    (connect World.quiet ProtocolType.MQTT (ProtocolManager.new 0)).1 = false ∧
    (connect World.kind ProtocolType.MQTT
      (connect World.quiet ProtocolType.MQTT (ProtocolManager.new 0)).2).1 = true ∧
    getState (connect World.kind ProtocolType.MQTT
      (connect World.quiet ProtocolType.MQTT (ProtocolManager.new 0)).2).2
      ProtocolType.MQTT = Except.ok ProtocolState.CONNECTED ∧
    getLastError (connect World.kind ProtocolType.MQTT
      (connect World.quiet ProtocolType.MQTT (ProtocolManager.new 0)).2).2
      ProtocolType.MQTT = Except.ok "Failed to connect to MQTT broker" :=
  ⟨rfl, rfl,
    (successful_connect_keeps_last_error World.quiet World.kind (ProtocolManager.new 0)
      rfl rfl).1,
    (successful_connect_keeps_last_error World.quiet World.kind (ProtocolManager.new 0)
      rfl rfl).2.1⟩

/-! ## State objects (`src/States`) -/

/-- The three classes derived from `State`. -/
inductive StateClass where
  | InitState
  | ConnectState
  | RunState
  deriving DecidableEq, Repr

/-- The member `getName` of each class. -/
def StateClass.getName : StateClass → String
  | StateClass.InitState => "InitState"
  | StateClass.ConnectState => "ConnectState"
  | StateClass.RunState => "RunState"

/-- A call of a State object that leaves the program. -/
inductive StateCall where
  | println (line : String)
  | delay (ms : Nat)
  deriving DecidableEq, Repr

/-- The State objects allocated so far, in allocation order, and the calls
made.  A pointer is a number: `0` is the null pointer and `k + 1` points to
the object allocated `k`-th.  Objects are not freed by any `update`. -/
structure StateHeap where
  objects : List StateClass
  calls : List StateCall
  deriving DecidableEq, Repr

/-- The class of the object a pointer points to, if it points to one. -/
def StateHeap.classOf (h : StateHeap) (p : Nat) : Option StateClass :=
  match p with
  | 0 => none
  | k + 1 => h.objects[k]?

/-- The expression `new C()`: the object is appended and its pointer
returned. -/
def StateHeap.alloc (h : StateHeap) (c : StateClass) : Nat × StateHeap :=
  (h.objects.length + 1, { h with objects := h.objects ++ [c] })

/-- Record a call. -/
def StateHeap.call (h : StateHeap) (c : StateCall) : StateHeap :=
  { h with calls := h.calls ++ [c] }

/-- The member `InitState::update`. -/
def InitState.update (h : StateHeap) (_this : Nat) : Nat × StateHeap :=
  (h.call (StateCall.println "[InitState] Completado. Indo para ConnectState.")).alloc
    StateClass.ConnectState

/-- The member `ConnectState::update`. -/
def ConnectState.update (h : StateHeap) (_this : Nat) : Nat × StateHeap :=
  (h.call (StateCall.println "[ConnectState] Conexão estabelecida. Indo para RunState.")).alloc
    StateClass.RunState

/-- The member `RunState::update`. -/
def RunState.update (h : StateHeap) (this : Nat) : Nat × StateHeap :=
  (this, (h.call (StateCall.println "[RunState] Executando tarefas principais...")).call
    (StateCall.delay 1000))

/-- The virtual call `p->update()`: the member of the class of the object
`p` points to; nothing when `p` points to no object. -/
def State.update (h : StateHeap) (p : Nat) : Option (Nat × StateHeap) :=
  match h.classOf p with
  | none => none
  | some StateClass.InitState => some (InitState.update h p)
  | some StateClass.ConnectState => some (ConnectState.update h p)
  | some StateClass.RunState => some (RunState.update h p)

/-- The virtual call `p->getName()`. -/
def State.getName (h : StateHeap) (p : Nat) : Option String :=
  (h.classOf p).map StateClass.getName

/-- Repeated updates: `n` times `p = p->update()`. -/
def State.updates : Nat → StateHeap → Nat → Option (Nat × StateHeap)
  | 0, h, p => some (p, h)
  | n + 1, h, p =>
      match State.update h p with
      | none => none
      | some (q, h1) => State.updates n h1 q

theorem alloc_fresh (h : StateHeap) (c : StateClass) :
    (h.alloc c).1 ≠ 0 ∧ h.classOf (h.alloc c).1 = none ∧
    (h.alloc c).2.classOf (h.alloc c).1 = some c := by
  refine ⟨Nat.succ_ne_zero _, ?_, ?_⟩
  · show h.objects[h.objects.length]? = none
    exact List.getElem?_eq_none (Nat.le_refl _)
  · show (h.objects ++ [c])[h.objects.length]? = some c
    exact List.getElem?_concat_length _ _

theorem call_classOf (h : StateHeap) (c : StateCall) (p : Nat) :
    (h.call c).classOf p = h.classOf p := by
  cases p <;> rfl

theorem update_of_InitState (h : StateHeap) (p : Nat)
    (hp : h.classOf p = some StateClass.InitState) :
    ∃ q h1, State.update h p = some (q, h1) ∧ q ≠ 0 ∧ h.classOf q = none ∧
      h1.classOf q = some StateClass.ConnectState := by
  have hf := alloc_fresh
    (h.call (StateCall.println "[InitState] Completado. Indo para ConnectState."))
    StateClass.ConnectState
  rw [call_classOf] at hf
  exact ⟨_, _, by simp only [State.update, hp]; rfl, hf.1, hf.2.1, hf.2.2⟩

theorem update_of_ConnectState (h : StateHeap) (p : Nat)
    (hp : h.classOf p = some StateClass.ConnectState) :
    ∃ q h1, State.update h p = some (q, h1) ∧ q ≠ 0 ∧ h.classOf q = none ∧
      h1.classOf q = some StateClass.RunState := by
  have hf := alloc_fresh
    (h.call (StateCall.println "[ConnectState] Conexão estabelecida. Indo para RunState."))
    StateClass.RunState
  rw [call_classOf] at hf
  exact ⟨_, _, by simp only [State.update, hp]; rfl, hf.1, hf.2.1, hf.2.2⟩

/-- C22: `update()` on any InitState returns a pointer that is not null, to an
object that did not exist before, whose name is "ConnectState"; `update()` on
any ConnectState returns one, not null and new, whose name is "RunState"; and
two updates starting from an InitState end in an object named "RunState". -/
theorem init_then_connect_then_run (h g : StateHeap) (p c : Nat)
    (hp : h.classOf p = some StateClass.InitState)
    (hc : g.classOf c = some StateClass.ConnectState) :
    (∃ q h1, State.update h p = some (q, h1) ∧ q ≠ 0 ∧ h.classOf q = none ∧
      State.getName h1 q = some "ConnectState") ∧
    (∃ r g1, State.update g c = some (r, g1) ∧ r ≠ 0 ∧ g.classOf r = none ∧
      State.getName g1 r = some "RunState") ∧
    (∃ r h2, State.updates 2 h p = some (r, h2) ∧ r ≠ 0 ∧
      State.getName h2 r = some "RunState") := by
  obtain ⟨q, h1, hu, hq0, hqnew, hqc⟩ := update_of_InitState h p hp
  obtain ⟨r, g1, hu2, hr0, hrnew, hrc⟩ := update_of_ConnectState g c hc
  obtain ⟨r3, h2, hu3, hr30, _, hr3c⟩ := update_of_ConnectState h1 q hqc
  refine ⟨⟨q, h1, hu, hq0, hqnew, by simp [State.getName, hqc, StateClass.getName]⟩,
    ⟨r, g1, hu2, hr0, hrnew, by simp [State.getName, hrc, StateClass.getName]⟩,
    ⟨r3, h2, ?_, hr30, by simp [State.getName, hr3c, StateClass.getName]⟩⟩
  simp only [State.updates, hu, hu3]

/-- Witness of C22: a heap holding one InitState, and one holding one
ConnectState. -/
theorem init_then_connect_then_run_witness :
    StateHeap.classOf { objects := [StateClass.InitState], calls := [] } 1 =
      some StateClass.InitState ∧
    StateHeap.classOf { objects := [StateClass.ConnectState], calls := [] } 1 =
      some StateClass.ConnectState ∧
    (∃ r h2, State.updates 2 { objects := [StateClass.InitState], calls := [] } 1 =
        some (r, h2) ∧ r ≠ 0 ∧ State.getName h2 r = some "RunState") :=
  ⟨rfl, rfl,
    (init_then_connect_then_run { objects := [StateClass.InitState], calls := [] }
      { objects := [StateClass.ConnectState], calls := [] } 1 1 rfl rfl).2.2⟩

theorem updates_of_RunState (n : Nat) (h : StateHeap) (r : Nat)
    (hr : h.classOf r = some StateClass.RunState) :
    ∃ hn, State.updates n h r = some (r, hn) ∧ hn.objects = h.objects := by
  induction n generalizing h with
  | zero => exact ⟨h, rfl, rfl⟩
  | succ k ih =>
    have hstep : State.update h r = some (RunState.update h r) := by
      simp only [State.update, hr]
    have hr1 : (RunState.update h r).2.classOf r = some StateClass.RunState := by
      simp only [RunState.update, call_classOf, hr]
    obtain ⟨hn, hu, ho⟩ := ih (RunState.update h r).2 hr1
    exact ⟨hn, by simp only [State.updates, hstep]; exact hu, by rw [ho]; rfl⟩

/-- C23: for every RunState `r`, `r.update()` returns `r` itself and allocates
no object, so after any number of repeated updates the pointer is still `r`,
still a RunState. -/
theorem runState_update_returns_this (h : StateHeap) (r : Nat)
    (hr : h.classOf r = some StateClass.RunState) :
    (∃ h1, State.update h r = some (r, h1) ∧ h1.objects = h.objects) ∧
    ∀ n, ∃ hn, State.updates n h r = some (r, hn) ∧ hn.objects = h.objects ∧
      State.getName hn r = some "RunState" := by
  constructor
  · exact ⟨(RunState.update h r).2, by simp only [State.update, hr]; rfl, rfl⟩
  · intro n
    obtain ⟨hn, hu, ho⟩ := updates_of_RunState n h r hr
    refine ⟨hn, hu, ho, ?_⟩
    have hc : hn.classOf r = h.classOf r := by
      cases r with
      | zero => rfl
      | succ k => simp only [StateHeap.classOf, ho]
    simp [State.getName, hc, hr, StateClass.getName]

/-- Witness of C23: a heap holding one RunState, updated three times. -/
theorem runState_update_returns_this_witness :
    StateHeap.classOf { objects := [StateClass.RunState], calls := [] } 1 =
      some StateClass.RunState ∧
    ∃ hn, State.updates 3 { objects := [StateClass.RunState], calls := [] } 1 =
        some (1, hn) ∧
      hn.objects = [StateClass.RunState] ∧ State.getName hn 1 = some "RunState" :=
  ⟨rfl,
    (runState_update_returns_this { objects := [StateClass.RunState], calls := [] } 1
      rfl).2 3⟩

/-! ## The system state machine (`state_machine.h`, `state_machine.cpp`)

The maintenance module is embedded as far as `StateMachine` drives it: its
state, its last error, `begin` and `update`.  Its operations on the file
system and the network (`loadConfig`, `checkForUpdates`, `backupSystem`,
`restoreSystem`, `factoryReset`, and the request handlers that
`webServer.handleClient()` runs) assign only `lastError` and `config` in the
source, or restart the device; what they come to is read from the world. -/

/-- System states, `enum class SystemState`. -/
inductive SystemState where
  | INIT
  | LORA_CONFIG
  | ZIGBEE_CONFIG
  | MODBUS_CONFIG
  | ANALOG_READING
  | DATA_PROCESSING
  | MAINTENANCE
  | ERROR
  deriving DecidableEq, Repr

/-- Module states, `enum class LoraState`. -/
inductive LoraState where
  | IDLE
  | CONFIGURING
  | TRANSMITTING
  | RECEIVING
  | ERROR
  deriving DecidableEq, Repr

/-- Module states, `enum class ZigbeeState`. -/
inductive ZigbeeState where
  | IDLE
  | CONFIGURING
  | TRANSMITTING
  | RECEIVING
  | ERROR
  deriving DecidableEq, Repr

/-- Module states, `enum class ModbusState`. -/
inductive ModbusState where
  | IDLE
  | READING
  | WRITING
  | ERROR
  deriving DecidableEq, Repr

/-- Module states, `enum class AnalogState`. -/
inductive AnalogState where
  | IDLE
  | READING
  | ERROR
  deriving DecidableEq, Repr

/-- Maintenance states, `enum class MaintenanceState`. -/
inductive MaintenanceState where
  | IDLE
  | CHECKING_UPDATE
  | DOWNLOADING_UPDATE
  | INSTALLING_UPDATE
  | BACKING_UP
  | RESTORING
  | FACTORY_RESET
  | ERROR
  deriving DecidableEq, Repr

/-- The operations of the maintenance module whose outcome is the world's. -/
inductive MaintenanceOp where
  | handleClient
  | checkForUpdates
  | backupSystem
  | restoreSystem
  | factoryReset
  | loadConfig
  deriving DecidableEq, Repr

/-- What such an operation comes to: it returns a result, having left
`lastError` alone or assigned it, or it restarts the device and never
returns. -/
inductive Outcome where
  | returned (result : Bool) (lastError : Option String)
  | restarted
  deriving DecidableEq, Repr

/-- A call that leaves the maintenance module. -/
inductive MaintCall where
  | spiffsBegin
  | spiffsExists
  | spiffsMkdir
  | webServerOn (route : String)
  | webServerOnNotFound
  | run (op : MaintenanceOp)
  | println (line : String)
  deriving DecidableEq, Repr

/-- A call from the state machine to the hardware. -/
inductive HwCall where
  | pinMode (pin : Nat) (output : Bool)
  | digitalWrite (pin : Nat) (high : Bool)
  | loraSerialBegin (baud : Nat)
  | zigbeeSerialBegin (baud : Nat)
  | ledBegin
  | ledSetBrightness (brightness : Nat)
  | ledSetPixelColor (n r g b : Nat)
  | ledShow
  | analogRead (pin : Nat)
  deriving DecidableEq, Repr

/-- What the world answers to the state machine and its maintenance module;
the argument is the number of calls recorded when the call is made. -/
structure MachineWorld where
  spiffsBegin : Nat → Bool
  spiffsExists : Nat → Bool
  loadConfig : Nat → Bool
  run : MaintenanceOp → Nat → Outcome

/-- The data members of `class Maintenance` that its `begin` and `update`
read or assign, and `trace`, the ghost record of its calls. -/
structure Maintenance where
  currentState : MaintenanceState
  lastError : String
  remoteDebugEnabled : Bool
  webServerRunning : Bool
  trace : List MaintCall

/-- The data members of `class StateMachine`, and `trace`, the ghost record
of its calls to the hardware. -/
structure StateMachine where
  currentState : SystemState
  loraState : LoraState
  zigbeeState : ZigbeeState
  modbusState : ModbusState
  analogState : AnalogState
  maintenance : Maintenance
  trace : List HwCall

/-- Pin of the LoRa module, `LORA_AUX_PIN`. -/
def LORA_AUX_PIN : Nat := 4

/-- Pin of the LoRa module, `LORA_M0_PIN`. -/
def LORA_M0_PIN : Nat := 2

/-- Pin of the LoRa module, `LORA_M1_PIN`. -/
def LORA_M1_PIN : Nat := 15

/-- Pin of the Modbus module, `MODBUS_DE_PIN`. -/
def MODBUS_DE_PIN : Nat := 23

/-- Pin of the Modbus module, `MODBUS_RE_PIN`. -/
def MODBUS_RE_PIN : Nat := 5

/-- First analog input, `ANALOG_INPUT_1`. -/
def ANALOG_INPUT_1 : Nat := 34

/-- Second analog input, `ANALOG_INPUT_2`. -/
def ANALOG_INPUT_2 : Nat := 35

/-- Record a call of the maintenance module. -/
def Maintenance.emit (m : Maintenance) (c : MaintCall) : Maintenance :=
  { m with trace := m.trace ++ [c] }

/-- The index at which the next call of the maintenance module reads the
world. -/
def Maintenance.now (m : Maintenance) : Nat := m.trace.length

/-- The constructor `Maintenance::Maintenance()`. -/
def Maintenance.new : Maintenance :=
  { currentState := MaintenanceState.IDLE, lastError := "", remoteDebugEnabled := false,
    webServerRunning := false, trace := [] }

/-- The member `Maintenance::logMaintenanceEvent`. -/
def Maintenance.logMaintenanceEvent (event : String) (m : Maintenance) : Maintenance :=
  m.emit (MaintCall.println ("[Maintenance] " ++ event))

/-- The member `Maintenance::setError`. -/
def Maintenance.setError (error : String) (m : Maintenance) : Maintenance :=
  Maintenance.logMaintenanceEvent ("Error: " ++ error) { m with lastError := error }

/-- The eight routes `Maintenance::begin` registers with `webServer.on`. -/
def Maintenance.routes : List String :=
  ["/", "/update", "/backup", "/restore", "/factory-reset", "/config", "/progress",
    "/status"]

/-- The member `Maintenance::begin`.  `loadConfig` reports failure or
success; on failure `begin` assigns the last error itself. -/
def Maintenance.begin (w : MachineWorld) (m : Maintenance) : Maintenance :=
  let mounted := w.spiffsBegin m.now
  let m1 := m.emit MaintCall.spiffsBegin
  if !mounted then Maintenance.setError "Failed to mount SPIFFS" m1
  else
    let found := w.spiffsExists m1.now
    let m2 := m1.emit MaintCall.spiffsExists
    let m3 := if !found then m2.emit MaintCall.spiffsMkdir else m2
    let loaded := w.loadConfig m3.now
    let m4 := m3.emit (MaintCall.run MaintenanceOp.loadConfig)
    let m5 := if !loaded then Maintenance.setError "Failed to load configuration" m4 else m4
    (Maintenance.routes.foldl (fun u route => u.emit (MaintCall.webServerOn route)) m5).emit
      MaintCall.webServerOnNotFound

/-- One of the operations whose outcome is the world's: nothing when the
device restarts, else the result and the module with `lastError` as the
operation left it. -/
def Maintenance.runOp (w : MachineWorld) (op : MaintenanceOp) (m : Maintenance) :
    Option (Bool × Maintenance) :=
  match w.run op m.now with
  | Outcome.restarted => none
  | Outcome.returned result lastError =>
      some (result,
        { m.emit (MaintCall.run op) with lastError := lastError.getD m.lastError })

/-- The pattern `if (op()) currentState = a; else currentState = b;` of
`Maintenance::update`. -/
def Maintenance.branch (w : MachineWorld) (op : MaintenanceOp)
    (a b : MaintenanceState) (m : Maintenance) : Option Maintenance :=
  match Maintenance.runOp w op m with
  | none => none
  | some (true, m1) => some { m1 with currentState := a }
  | some (false, m1) => some { m1 with currentState := b }

/-- The member `Maintenance::update`; nothing when the device restarts. -/
def Maintenance.update (w : MachineWorld) (m : Maintenance) : Option Maintenance :=
  let served :=
    if m.webServerRunning then
      (Maintenance.runOp w MaintenanceOp.handleClient m).map Prod.snd
    else some m
  match served with
  | none => none
  | some m1 =>
      match m1.currentState with
      | MaintenanceState.CHECKING_UPDATE =>
          Maintenance.branch w MaintenanceOp.checkForUpdates
            MaintenanceState.DOWNLOADING_UPDATE MaintenanceState.IDLE m1
      | MaintenanceState.DOWNLOADING_UPDATE => some m1
      | MaintenanceState.INSTALLING_UPDATE => some m1
      | MaintenanceState.BACKING_UP =>
          Maintenance.branch w MaintenanceOp.backupSystem
            MaintenanceState.IDLE MaintenanceState.ERROR m1
      | MaintenanceState.RESTORING =>
          Maintenance.branch w MaintenanceOp.restoreSystem
            MaintenanceState.IDLE MaintenanceState.ERROR m1
      | MaintenanceState.FACTORY_RESET =>
          Maintenance.branch w MaintenanceOp.factoryReset
            MaintenanceState.IDLE MaintenanceState.ERROR m1
      | _ => some m1

/-- The member `Maintenance::getState`. -/
def Maintenance.getState (m : Maintenance) : MaintenanceState := m.currentState

/-- Record a call to the hardware. -/
def StateMachine.hw (s : StateMachine) (c : HwCall) : StateMachine :=
  { s with trace := s.trace ++ [c] }

/-- The constructor `StateMachine::StateMachine()`. -/
def StateMachine.new : StateMachine :=
  { currentState := SystemState.INIT, loraState := LoraState.IDLE,
    zigbeeState := ZigbeeState.IDLE, modbusState := ModbusState.IDLE,
    analogState := AnalogState.IDLE, maintenance := Maintenance.new, trace := [] }

/-- The member `StateMachine::updateLedColor`. -/
def StateMachine.updateLedColor (r g b : Nat) (s : StateMachine) : StateMachine :=
  (s.hw (HwCall.ledSetPixelColor 0 r g b)).hw HwCall.ledShow

/-- The member `StateMachine::handleError`. -/
def StateMachine.handleError (s : StateMachine) : StateMachine :=
  StateMachine.updateLedColor 255 0 0 s

/-- The member `StateMachine::setState`. -/
def StateMachine.setState (newState : SystemState) (s : StateMachine) : StateMachine :=
  let s1 := { s with currentState := newState }
  match newState with
  | SystemState.INIT => StateMachine.updateLedColor 0 0 255 s1
  | SystemState.MAINTENANCE => StateMachine.updateLedColor 255 165 0 s1
  | SystemState.ERROR => StateMachine.updateLedColor 255 0 0 s1
  | _ => StateMachine.updateLedColor 0 255 0 s1

/-- The member `StateMachine::getCurrentState`. -/
def StateMachine.getCurrentState (s : StateMachine) : SystemState := s.currentState

/-- The member `StateMachine::initLora`. -/
def StateMachine.initLora (s : StateMachine) : StateMachine :=
  let s1 := s.hw (HwCall.pinMode LORA_AUX_PIN false)
  let s2 := s1.hw (HwCall.pinMode LORA_M0_PIN true)
  let s3 := s2.hw (HwCall.pinMode LORA_M1_PIN true)
  let s4 := s3.hw (HwCall.digitalWrite LORA_M0_PIN true)
  let s5 := s4.hw (HwCall.digitalWrite LORA_M1_PIN true)
  let s6 := s5.hw (HwCall.loraSerialBegin 9600)
  { s6 with loraState := LoraState.CONFIGURING }

/-- The member `StateMachine::initZigbee`. -/
def StateMachine.initZigbee (s : StateMachine) : StateMachine :=
  { s.hw (HwCall.zigbeeSerialBegin 9600) with zigbeeState := ZigbeeState.CONFIGURING }

/-- The member `StateMachine::initModbus`. -/
def StateMachine.initModbus (s : StateMachine) : StateMachine :=
  let s1 := s.hw (HwCall.pinMode MODBUS_DE_PIN true)
  let s2 := s1.hw (HwCall.pinMode MODBUS_RE_PIN true)
  let s3 := s2.hw (HwCall.digitalWrite MODBUS_DE_PIN false)
  let s4 := s3.hw (HwCall.digitalWrite MODBUS_RE_PIN false)
  { s4 with modbusState := ModbusState.IDLE }

/-- The member `StateMachine::initAnalog`. -/
def StateMachine.initAnalog (s : StateMachine) : StateMachine :=
  let s1 := s.hw (HwCall.pinMode ANALOG_INPUT_1 false)
  let s2 := s1.hw (HwCall.pinMode ANALOG_INPUT_2 false)
  { s2 with analogState := AnalogState.IDLE }

/-- The member `StateMachine::initLed`. -/
def StateMachine.initLed (s : StateMachine) : StateMachine :=
  StateMachine.updateLedColor 0 0 255 ((s.hw HwCall.ledBegin).hw (HwCall.ledSetBrightness 50))

/-- The member `StateMachine::initMaintenance`. -/
def StateMachine.initMaintenance (w : MachineWorld) (s : StateMachine) : StateMachine :=
  { s with maintenance := Maintenance.begin w s.maintenance }

/-- The member `StateMachine::begin`. -/
def StateMachine.begin (w : MachineWorld) (s : StateMachine) : StateMachine :=
  let s1 := StateMachine.initLora s
  let s2 := StateMachine.initZigbee s1
  let s3 := StateMachine.initModbus s2
  let s4 := StateMachine.initAnalog s3
  let s5 := StateMachine.initLed s4
  let s6 := StateMachine.initMaintenance w s5
  StateMachine.setState SystemState.INIT s6

/-- The member `StateMachine::updateLora`. -/
def StateMachine.updateLora (s : StateMachine) : StateMachine :=
  match s.loraState with
  | LoraState.CONFIGURING => { s with loraState := LoraState.IDLE }
  | LoraState.TRANSMITTING => s
  | LoraState.RECEIVING => s
  | LoraState.ERROR => StateMachine.handleError s
  | _ => s

/-- The member `StateMachine::updateZigbee`. -/
def StateMachine.updateZigbee (s : StateMachine) : StateMachine :=
  match s.zigbeeState with
  | ZigbeeState.CONFIGURING => { s with zigbeeState := ZigbeeState.IDLE }
  | ZigbeeState.TRANSMITTING => s
  | ZigbeeState.RECEIVING => s
  | ZigbeeState.ERROR => StateMachine.handleError s
  | _ => s

/-- The member `StateMachine::updateModbus`. -/
def StateMachine.updateModbus (s : StateMachine) : StateMachine :=
  match s.modbusState with
  | ModbusState.READING =>
      (s.hw (HwCall.digitalWrite MODBUS_DE_PIN false)).hw
        (HwCall.digitalWrite MODBUS_RE_PIN false)
  | ModbusState.WRITING =>
      (s.hw (HwCall.digitalWrite MODBUS_DE_PIN true)).hw
        (HwCall.digitalWrite MODBUS_RE_PIN true)
  | ModbusState.ERROR => StateMachine.handleError s
  | _ => s

/-- The member `StateMachine::updateAnalog`; the two values read are not
used. -/
def StateMachine.updateAnalog (s : StateMachine) : StateMachine :=
  match s.analogState with
  | AnalogState.READING =>
      { (s.hw (HwCall.analogRead ANALOG_INPUT_1)).hw (HwCall.analogRead ANALOG_INPUT_2) with
        analogState := AnalogState.IDLE }
  | AnalogState.ERROR => StateMachine.handleError s
  | _ => s

/-- The member `StateMachine::updateLed`. -/
def StateMachine.updateLed (s : StateMachine) : StateMachine :=
  s.hw HwCall.ledShow

/-- The member `StateMachine::updateMaintenance`; nothing when the device
restarts. -/
def StateMachine.updateMaintenance (w : MachineWorld) (s : StateMachine) :
    Option StateMachine :=
  (Maintenance.update w s.maintenance).map fun m => { s with maintenance := m }

/-- The member `StateMachine::update`; nothing when the device restarts
inside the maintenance module. -/
def StateMachine.update (w : MachineWorld) (s : StateMachine) : Option StateMachine :=
  match s.currentState with
  | SystemState.INIT => some (StateMachine.setState SystemState.LORA_CONFIG s)
  | SystemState.LORA_CONFIG =>
      let s1 := StateMachine.updateLora s
      some (if s1.loraState = LoraState.IDLE then
        StateMachine.setState SystemState.ZIGBEE_CONFIG s1 else s1)
  | SystemState.ZIGBEE_CONFIG =>
      let s1 := StateMachine.updateZigbee s
      some (if s1.zigbeeState = ZigbeeState.IDLE then
        StateMachine.setState SystemState.MODBUS_CONFIG s1 else s1)
  | SystemState.MODBUS_CONFIG =>
      let s1 := StateMachine.updateModbus s
      some (if s1.modbusState = ModbusState.IDLE then
        StateMachine.setState SystemState.ANALOG_READING s1 else s1)
  | SystemState.ANALOG_READING =>
      let s1 := StateMachine.updateAnalog s
      some (if s1.analogState = AnalogState.IDLE then
        StateMachine.setState SystemState.DATA_PROCESSING s1 else s1)
  | SystemState.DATA_PROCESSING =>
      StateMachine.updateMaintenance w
        (StateMachine.updateLed
          (StateMachine.updateAnalog
            (StateMachine.updateModbus
              (StateMachine.updateZigbee (StateMachine.updateLora s)))))
  | SystemState.MAINTENANCE =>
      match StateMachine.updateMaintenance w s with
      | none => none
      | some s1 =>
          some (if s1.maintenance.getState = MaintenanceState.IDLE then
            StateMachine.setState SystemState.DATA_PROCESSING s1 else s1)
  | SystemState.ERROR => some (StateMachine.handleError s)

/-- The machine after `n` calls of `update`, the `k`-th in the world `ws k`;
nothing when one of them does not return. -/
def StateMachine.updates (ws : Nat → MachineWorld) : Nat → StateMachine → Option StateMachine
  | 0, s => some s
  | n + 1, s =>
      match StateMachine.updates ws n s with
      | none => none
      | some t => StateMachine.update (ws n) t

/-- The system state the claim gives after `n` calls of `update` following
`begin`: `INIT`, then the four configuration states in turn, then
`DATA_PROCESSING` from the fifth call on. -/
def expectedState : Nat → SystemState
  | 0 => SystemState.INIT
  | 1 => SystemState.LORA_CONFIG
  | 2 => SystemState.ZIGBEE_CONFIG
  | 3 => SystemState.MODBUS_CONFIG
  | 4 => SystemState.ANALOG_READING
  | _ => SystemState.DATA_PROCESSING

/-- What holds of the machine after `n` calls of `update` following `begin`:
the system state is the expected one, the LoRa and Zigbee modules are
configured once their turn has passed, the other two modules are idle, and the
maintenance module is idle with its web server stopped. -/
def Staged (n : Nat) (s : StateMachine) : Prop :=
  s.currentState = expectedState n ∧
  s.loraState = (if n ≤ 1 then LoraState.CONFIGURING else LoraState.IDLE) ∧
  s.zigbeeState = (if n ≤ 2 then ZigbeeState.CONFIGURING else ZigbeeState.IDLE) ∧
  s.modbusState = ModbusState.IDLE ∧ s.analogState = AnalogState.IDLE ∧
  s.maintenance.currentState = MaintenanceState.IDLE ∧
  s.maintenance.webServerRunning = false

theorem maintenance_routes_idle (routes : List String) (m : Maintenance) :
    (routes.foldl (fun u route => u.emit (MaintCall.webServerOn route)) m).currentState =
      m.currentState ∧
    (routes.foldl (fun u route => u.emit (MaintCall.webServerOn route)) m).webServerRunning =
      m.webServerRunning := by
  induction routes generalizing m with
  | nil => exact ⟨rfl, rfl⟩
  | cons r rest ih =>
    rw [List.foldl_cons]
    exact ih (m.emit (MaintCall.webServerOn r))

theorem maintenance_emit_idle (m : Maintenance) (c : MaintCall) :
    (m.emit c).currentState = m.currentState ∧
    (m.emit c).webServerRunning = m.webServerRunning :=
  ⟨rfl, rfl⟩

theorem maintenance_setError_idle (m : Maintenance) (e : String) :
    (Maintenance.setError e m).currentState = m.currentState ∧
    (Maintenance.setError e m).webServerRunning = m.webServerRunning :=
  ⟨rfl, rfl⟩

theorem maintenance_begin_idle (w : MachineWorld) (m : Maintenance) :
    (Maintenance.begin w m).currentState = m.currentState ∧
    (Maintenance.begin w m).webServerRunning = m.webServerRunning := by
  unfold Maintenance.begin
  by_cases hmount : w.spiffsBegin m.now = true
  · simp only [hmount, Bool.not_true, Bool.false_eq_true, if_false]
    constructor
    · rw [(maintenance_emit_idle _ _).1, (maintenance_routes_idle _ _).1]
      split <;> split <;>
        simp only [(maintenance_setError_idle _ _).1, (maintenance_emit_idle _ _).1]
    · rw [(maintenance_emit_idle _ _).2, (maintenance_routes_idle _ _).2]
      split <;> split <;>
        simp only [(maintenance_setError_idle _ _).2, (maintenance_emit_idle _ _).2]
  · have hm : w.spiffsBegin m.now = false := by
      cases h : w.spiffsBegin m.now
      · rfl
      · exact absurd h hmount
    simp only [hm, Bool.not_false, if_true]
    exact ⟨by rw [(maintenance_setError_idle _ _).1, (maintenance_emit_idle _ _).1],
      by rw [(maintenance_setError_idle _ _).2, (maintenance_emit_idle _ _).2]⟩

theorem maintenance_update_idle (w : MachineWorld) (m : Maintenance)
    (hs : m.currentState = MaintenanceState.IDLE) (hw : m.webServerRunning = false) :
    Maintenance.update w m = some m := by
  simp [Maintenance.update, hs, hw]

theorem begin_staged (w : MachineWorld) :
    Staged 0 (StateMachine.begin w StateMachine.new) := by
  obtain ⟨h1, h2⟩ := maintenance_begin_idle w
    (StateMachine.initLed (StateMachine.initAnalog (StateMachine.initModbus
      (StateMachine.initZigbee (StateMachine.initLora StateMachine.new))))).maintenance
  exact ⟨rfl, rfl, rfl, rfl, rfl, h1, h2⟩

theorem update_staged (w : MachineWorld) (n : Nat) (s : StateMachine) (h : Staged n s) :
    ∃ t, StateMachine.update w s = some t ∧ Staged (n + 1) t := by
  obtain ⟨hc, hl, hz, hm, ha, hmc, hmw⟩ := h
  match n with
  | 0 =>
    refine ⟨StateMachine.setState SystemState.LORA_CONFIG s, ?_, rfl, hl, hz, hm, ha, hmc, hmw⟩
    simp only [StateMachine.update, hc, expectedState]
  | 1 =>
    refine ⟨StateMachine.setState SystemState.ZIGBEE_CONFIG
      { s with loraState := LoraState.IDLE }, ?_, rfl, rfl, hz, hm, ha, hmc, hmw⟩
    simp only [expectedState] at hc
    simp at hl
    simp [StateMachine.update, hc, StateMachine.updateLora, hl]
  | 2 =>
    simp only [expectedState] at hc
    simp at hl hz
    refine ⟨StateMachine.setState SystemState.MODBUS_CONFIG
      { s with zigbeeState := ZigbeeState.IDLE }, ?_, rfl, hl, rfl, hm, ha, hmc, hmw⟩
    simp [StateMachine.update, hc, StateMachine.updateZigbee, hz]
  | 3 =>
    simp only [expectedState] at hc
    simp at hl hz
    refine ⟨StateMachine.setState SystemState.ANALOG_READING s, ?_, rfl, hl, hz, hm, ha,
      hmc, hmw⟩
    simp [StateMachine.update, hc, StateMachine.updateModbus, hm]
  | 4 =>
    simp only [expectedState] at hc
    simp at hl hz
    refine ⟨StateMachine.setState SystemState.DATA_PROCESSING s, ?_, rfl, hl, hz, hm, ha,
      hmc, hmw⟩
    simp [StateMachine.update, hc, StateMachine.updateAnalog, ha]
  | k + 5 =>
    simp only [expectedState] at hc
    simp at hl hz
    refine ⟨StateMachine.updateLed s, ?_, hc, by simpa using hl, by simpa using hz, hm, ha,
      hmc, hmw⟩
    simp [StateMachine.update, hc, StateMachine.updateLora, hl, StateMachine.updateZigbee, hz,
      StateMachine.updateModbus, hm, StateMachine.updateAnalog, ha,
      StateMachine.updateMaintenance, StateMachine.updateLed, StateMachine.hw,
      maintenance_update_idle w s.maintenance hmc hmw]

theorem updates_staged (ws : Nat → MachineWorld) (s : StateMachine) (h : Staged 0 s)
    (n : Nat) : ∃ t, StateMachine.updates ws n s = some t ∧ Staged n t := by
  induction n with
  | zero => exact ⟨s, rfl, h⟩
  | succ k ih =>
    obtain ⟨t, ht, hst⟩ := ih
    obtain ⟨u, hu, hsu⟩ := update_staged (ws k) k t hst
    exact ⟨u, by simp only [StateMachine.updates, ht, hu], hsu⟩

theorem setState_currentState (st : SystemState) (s : StateMachine) :
    (StateMachine.setState st s).currentState = st := by
  cases st <;> rfl

theorem updateLora_currentState (s : StateMachine) :
    (StateMachine.updateLora s).currentState = s.currentState := by
  unfold StateMachine.updateLora
  cases s.loraState <;> rfl

theorem updateZigbee_currentState (s : StateMachine) :
    (StateMachine.updateZigbee s).currentState = s.currentState := by
  unfold StateMachine.updateZigbee
  cases s.zigbeeState <;> rfl

theorem updateModbus_currentState (s : StateMachine) :
    (StateMachine.updateModbus s).currentState = s.currentState := by
  unfold StateMachine.updateModbus
  cases s.modbusState <;> rfl

theorem updateAnalog_currentState (s : StateMachine) :
    (StateMachine.updateAnalog s).currentState = s.currentState := by
  unfold StateMachine.updateAnalog
  cases s.analogState <;> rfl

theorem updateMaintenance_currentState (w : MachineWorld) (s t : StateMachine)
    (h : StateMachine.updateMaintenance w s = some t) : t.currentState = s.currentState := by
  unfold StateMachine.updateMaintenance at h
  cases hm : Maintenance.update w s.maintenance with
  | none => simp [hm] at h
  | some m =>
    simp only [hm, Option.map_some', Option.some.injEq] at h
    rw [← h]

theorem update_never_enters_error (w : MachineWorld) (s t : StateMachine)
    (h : StateMachine.update w s = some t) (hne : s.currentState ≠ SystemState.ERROR) :
    t.currentState ≠ SystemState.ERROR := by
  unfold StateMachine.update at h
  cases hc : s.currentState with
  | ERROR => exact absurd hc hne
  | INIT =>
    simp only [hc, Option.some.injEq] at h
    rw [← h, setState_currentState]
    decide
  | LORA_CONFIG =>
    simp only [hc, Option.some.injEq] at h
    rw [← h]
    split
    · rw [setState_currentState]
      decide
    · rw [updateLora_currentState, hc]
      decide
  | ZIGBEE_CONFIG =>
    simp only [hc, Option.some.injEq] at h
    rw [← h]
    split
    · rw [setState_currentState]
      decide
    · rw [updateZigbee_currentState, hc]
      decide
  | MODBUS_CONFIG =>
    simp only [hc, Option.some.injEq] at h
    rw [← h]
    split
    · rw [setState_currentState]
      decide
    · rw [updateModbus_currentState, hc]
      decide
  | ANALOG_READING =>
    simp only [hc, Option.some.injEq] at h
    rw [← h]
    split
    · rw [setState_currentState]
      decide
    · rw [updateAnalog_currentState, hc]
      decide
  | DATA_PROCESSING =>
    simp only [hc] at h
    rw [updateMaintenance_currentState w _ t h]
    simp only [StateMachine.updateLed, StateMachine.hw, updateAnalog_currentState,
      updateModbus_currentState, updateZigbee_currentState, updateLora_currentState, hc]
    decide
  | MAINTENANCE =>
    simp only [hc] at h
    split at h
    · simp at h
    · rename_i s1 hs1
      simp only [Option.some.injEq] at h
      rw [← h]
      split
      · rw [setState_currentState]
        decide
      · rw [updateMaintenance_currentState w s s1 hs1, hc]
        decide

/-- C24: after `begin()` on a constructed machine the system state is `INIT`,
and the successive calls of `update` all return and take it to `LORA_CONFIG`,
`ZIGBEE_CONFIG`, `MODBUS_CONFIG`, `ANALOG_READING` and, with the fifth call
and not before, `DATA_PROCESSING`, where every further call leaves it; and no
call of `update` takes a machine that is not in `ERROR` to `ERROR`. -/
theorem machine_reaches_data_processing (w0 : MachineWorld) (ws : Nat → MachineWorld) :
    (∀ n, ∃ t, StateMachine.updates ws n (StateMachine.begin w0 StateMachine.new) = some t ∧
      t.getCurrentState = expectedState n) ∧
    (∀ n, 5 ≤ n → ∃ t,
      StateMachine.updates ws n (StateMachine.begin w0 StateMachine.new) = some t ∧
      t.getCurrentState = SystemState.DATA_PROCESSING) ∧
    (∀ n, n < 5 → ∃ t,
      StateMachine.updates ws n (StateMachine.begin w0 StateMachine.new) = some t ∧
      t.getCurrentState ≠ SystemState.DATA_PROCESSING) ∧
    (∀ (w : MachineWorld) (s t : StateMachine), StateMachine.update w s = some t →
      s.getCurrentState ≠ SystemState.ERROR → t.getCurrentState ≠ SystemState.ERROR) := by
  have key := updates_staged ws _ (begin_staged w0)
  refine ⟨?_, ?_, ?_, update_never_enters_error⟩
  · intro n
    obtain ⟨t, ht, hst⟩ := key n
    exact ⟨t, ht, hst.1⟩
  · intro n hn
    obtain ⟨t, ht, hst⟩ := key n
    refine ⟨t, ht, ?_⟩
    obtain ⟨k, rfl⟩ : ∃ k, n = k + 5 := ⟨n - 5, by omega⟩
    exact hst.1
  · intro n hn
    obtain ⟨t, ht, hst⟩ := key n
    refine ⟨t, ht, ?_⟩
    have hcs : t.getCurrentState = expectedState n := hst.1
    rw [hcs]
    match n, hn with
    | 0, _ => decide
    | 1, _ => decide
    | 2, _ => decide
    | 3, _ => decide
    | 4, _ => decide

end Cerise
